import Mathlib

/-!
Shallow embedding of the werewolf party-game engine found in
`backend/app/game.py` and `backend/app/player.py`.

Modelling conventions:
* Python strings stay strings (`status`, `workflowStage`, `nightStage`,
  roles, event texts), so defensive branches over unexpected values are
  representable exactly as in the source.
* The `players` dict (insertion ordered, keyed by uuid) is an association
  list of `Player` records; dict assignment is `dictInsert` (replace in
  place, else append).  Uuids produced by the source are taken as input
  parameters.
* `random.shuffle` / `random.sample` / `random.choice` results are input
  parameters: a shuffled permutation, a sampled sublist, or a `pick`
  function which is assumed (hypothesis `ValidPick`) to return a member
  of a nonempty list and `none` on the empty list.
* Event log entries keep their `text` and `phase` fields; `eventId` and
  `timestamp` are opaque outputs of uuid / wall-clock collaborators and
  are dropped.  Audio, chat, and debug fields are external-collaborator
  artifacts never read by the game logic treated here and are omitted.
* Fallible endpoints (Python `raise HTTPException`) become
  `Except String`; every source `raise` happens before any state
  mutation, and the embedding mirrors that by only building the updated
  state after all checks pass, so an `error` result leaves the caller's
  state untouched.
-/

namespace Hackathon

/-- Player record mirroring class `Player` of `backend/app/player.py`:
id, name, host flag, AI flag, nullable role string, alive flag, private
notes, known allies. -/
structure Player where
  pid : String
  name : String
  isHost : Bool
  isAI : Bool
  role : Option String
  isAlive : Bool
  privateNotes : List String
  knownAllies : List String
deriving Repr, DecidableEq

/-- Event log entry (`_record_event`): narrative text plus phase tag. -/
structure EventEntry where
  text : String
  phase : String
deriving Repr, DecidableEq

/-- Game aggregate mirroring class `Game` of `backend/app/game.py`
(fields never read by the embedded logic omitted, see header). -/
structure Game where
  hostId : String
  status : String
  workflowStage : String
  nightStage : Option String
  roundNumber : Nat
  players : List Player
  joinSequence : List String
  turnOrder : List String
  currentTurnIndex : Option Nat
  votes : List (String × Option String)
  werewolfVotes : List (String × String)
  detectiveId : Option String
  detectiveTarget : Option String
  werewolfIds : List String
  lastNightKillId : Option String
  victoryTeam : Option String
  victoryMessage : Option String
  events : List EventEntry
deriving Repr, DecidableEq

/-- Lookup in the `players` dict (`game.players.get(pid)`). -/
def findPlayer (g : Game) (pid : String) : Option Player :=
  g.players.find? (fun p => p.pid == pid)

/-- Python method `Game.alive_players`. -/
def alivePlayers (g : Game) : List Player :=
  g.players.filter (fun p => p.isAlive)

/-- Python method `Game.alive_werewolves`. -/
def aliveWerewolves (g : Game) : List Player :=
  (alivePlayers g).filter (fun p => p.role == some "werewolf")

/-- Python method `Game.alive_villagers` (alive players whose role is not
werewolf, so the detective counts as a villager). -/
def aliveVillagers (g : Game) : List Player :=
  (alivePlayers g).filter (fun p => !(p.role == some "werewolf"))

/-- Ids of the alive players, in `players` dict order (the Python code
builds the set comprehension over `alive_players()`; ids are unique dict
keys, so the list carries the same information). -/
def aliveIds (g : Game) : List String :=
  (alivePlayers g).map Player.pid

/-- Dict assignment `game.players[p.id] = p`: replace in place when the
key exists, otherwise append (Python 3.7+ dict semantics). -/
def dictInsert (ps : List Player) (p : Player) : List Player :=
  if ps.any (fun q => q.pid == p.pid) then
    ps.map (fun q => if q.pid == p.pid then p else q)
  else ps ++ [p]

/-- Mutation of the single player stored under `pid`
(`game.players[pid].field = ...`). -/
def mapPlayer (g : Game) (pid : String) (f : Player → Player) : Game :=
  { g with players := g.players.map (fun p => if p.pid == pid then f p else p) }

/-- Python `_record_event` modulo the dropped id/timestamp: append an
entry whose phase defaults to the current workflow stage. -/
def recordEvent (g : Game) (text : String) (phase : Option String) : Game :=
  { g with events := g.events ++ [⟨text, phase.getD g.workflowStage⟩] }

/-- Python method `Game.start_night`. -/
def startNight (g : Game) (intro : Option String) : Game :=
  let g1 := { g with workflowStage := "night", nightStage := some "wolves",
                     currentTurnIndex := none, turnOrder := [],
                     lastNightKillId := none, werewolfVotes := [],
                     detectiveTarget := none }
  match intro with
  | some t => recordEvent g1 t (some "night")
  | none => g1

/-- Python `_declare_victory`. -/
def declareVictory (g : Game) (team msg : String) : Game :=
  recordEvent
    { g with status := "ended", workflowStage := "ended",
             victoryTeam := some team, victoryMessage := some msg }
    msg (some "ended")

/-- Python `_evaluate_victory`: returns whether a side won together with
the (possibly victory-stamped) game. -/
def evaluateVictory (g : Game) : Bool × Game :=
  if (aliveWerewolves g).isEmpty then
    (true, declareVictory g "village" "The town prevails! No werewolves remain.")
  else if (aliveVillagers g).length ≤ (aliveWerewolves g).length then
    (true, declareVictory g "werewolves" "The pack overpowers the town. Wolves win.")
  else (false, g)

/-- Winning team decided by one evaluation (`none` when play continues). -/
def victoryOutcome (g : Game) : Option String :=
  if (evaluateVictory g).1 then (evaluateVictory g).2.victoryTeam else none

/-- Python `_prepare_turn_order`: clear the day votes, set the turn order
to the join sequence filtered to alive players, then open the discussion
(or fall back to night when nobody is left). -/
def prepareTurnOrder (g : Game) : Game :=
  let g1 := { g with votes := [] }
  let living := g1.joinSequence.filter (fun pid =>
    match findPlayer g1 pid with
    | some p => p.isAlive
    | none => false)
  let g2 := { g1 with turnOrder := living }
  if living.isEmpty then
    { g2 with currentTurnIndex := none, workflowStage := "night" }
  else
    recordEvent
      { g2 with currentTurnIndex := some 0,
                roundNumber := g2.roundNumber + 1,
                workflowStage := "discussion" }
      ("Day " ++ toString (g2.roundNumber + 1) ++ " discussion begins.")
      (some "discussion")

/-- Public per-player view (`PlayerPublic` pydantic model). -/
structure PlayerPublic where
  playerId : String
  name : String
  isHost : Bool
  isAI : Bool
  isAlive : Bool
  role : Option String
deriving Repr, DecidableEq

/-- Python property `Game.player_list`: roles are only revealed once the
game has ended. -/
def playerList (g : Game) : List PlayerPublic :=
  g.players.map (fun p =>
    ⟨p.pid, p.name, p.isHost, p.isAI, p.isAlive,
      if g.status == "ended" then p.role else none⟩)

/-- State mutation performed by `_build_game_state_response`: lazily
filter dead ids out of `turn_order` and repair `current_turn_index`. -/
def buildResponseFilter (g : Game) : Game :=
  let g1 := { g with turnOrder := g.turnOrder.filter (fun pid =>
    match findPlayer g pid with
    | some p => p.isAlive
    | none => false) }
  if g1.workflowStage == "discussion" ∧ ¬ g1.turnOrder.isEmpty then
    match g1.currentTurnIndex with
    | none => { g1 with currentTurnIndex := some 0 }
    | some i =>
      if g1.turnOrder.length ≤ i then { g1 with currentTurnIndex := some 0 }
      else g1
  else { g1 with currentTurnIndex := none }

/-- Players section of the state response built by
`_build_game_state_response` (which runs the lazy filter first and then
reads `Game.player_list`). -/
def responsePlayers (g : Game) : List PlayerPublic :=
  playerList (buildResponseFilter g)

/-- Dict assignment `game.votes[k] = v` (`v = None` is an abstention). -/
def setVote (votes : List (String × Option String)) (k : String) (v : Option String) :
    List (String × Option String) :=
  if votes.any (fun e => e.1 == k) then
    votes.map (fun e => if e.1 == k then (k, v) else e)
  else votes ++ [(k, v)]

/-- Python `game.votes.get(voter.id)`: `.get` returns `None` both for a
missing key and for a stored abstention, exactly as the source conflates
them when deciding whether to log a vote-change event. -/
def getVote (votes : List (String × Option String)) (k : String) : Option String :=
  match votes.find? (fun e => e.1 == k) with
  | some e => e.2
  | none => none

/-- Number of votes for target `t` counted by `submit_vote`: the voter
and the target must both be currently alive. -/
def countFor (votes : List (String × Option String)) (alive : List String) (t : String) : Nat :=
  (votes.filter (fun e => decide (e.1 ∈ alive ∧ e.2 = some t ∧ t ∈ alive))).length

/-- Targets of the votes that `submit_vote` counts, in vote order. -/
def validVoteTargets (votes : List (String × Option String)) (alive : List String) :
    List String :=
  votes.filterMap (fun e =>
    match e.2 with
    | some t => if e.1 ∈ alive ∧ t ∈ alive then some t else none
    | none => none)

/-- First-occurrence deduplication, with an accumulator of already seen
keys; mirrors the key set of a Python dict built by repeated `+=`. -/
def firstDedupAux : List String → List String → List String
  | [], _ => []
  | x :: xs, seen =>
    if x ∈ seen then firstDedupAux xs seen else x :: firstDedupAux xs (x :: seen)

/-- Keys of a Python tally dict, in first-insertion order. -/
def firstDedup (l : List String) : List String :=
  firstDedupAux l []

/-- Items of the tally dict built inside `submit_vote`: each valid
target, in first-insertion order, with its total vote count. -/
def tallyPairs (votes : List (String × Option String)) (alive : List String) :
    List (String × Nat) :=
  (firstDedup (validVoteTargets votes alive)).map (fun t => (t, countFor votes alive t))

/-- Python `max(tally, key=tally.get)`: the first key attaining the
maximal count, scanning in dict order (`max` keeps the earlier element
on ties). -/
def maxByCount : List (String × Nat) → Option (String × Nat)
  | [] => none
  | e :: rest =>
    match maxByCount rest with
    | none => some e
    | some e2 => if e.2 < e2.2 then some e2 else some e

/-- Vote-change logging step of `submit_vote`: an event is appended only
when the recorded choice differs from the previous one (with `.get`
conflating a missing entry and a stored abstention). -/
def logVoteChange (g : Game) (voter : Player) (target : Option Player)
    (previous : Option String) : Game :=
  if previous ≠ target.map Player.pid then
    match target with
    | some t =>
        recordEvent g (voter.name ++ " voted to remove " ++ t.name ++ ".")
          (some "discussion")
    | none => recordEvent g (voter.name ++ " chose to abstain.") (some "discussion")
  else g

/-- Live majority step of `submit_vote`: take the top tally entry
(Python `max(tally, key=tally.get)`), and if it meets the threshold kick
that player, log it, evaluate victory, and if nobody won start the next
night. -/
def resolveMajority (g2 : Game) (tally : List (String × Nat)) (majority : Nat) : Game :=
  match maxByCount tally with
  | some (tid, cnt) =>
    if majority ≤ cnt then
      match findPlayer g2 tid with
      | some kicked =>
        if kicked.isAlive then
          let g3 := mapPlayer g2 tid (fun p => { p with isAlive := false })
          let g4 := recordEvent g3
            ("The town has voted. " ++ kicked.name ++ " is removed from the game.")
            (some "discussion")
          match evaluateVictory g4 with
          | (true, g5) => g5
          | (false, g5) =>
            startNight g5 (some ("Day " ++ toString g5.roundNumber ++
              " closes after a vote. Night " ++ toString (g5.roundNumber + 1) ++ " begins."))
        else g2
      | none => g2
    else g2
  | none => g2

/-- Core of `submit_vote` after all rejection checks: record the vote,
log a change, and run the live majority check over the tally of votes by
alive voters for alive targets. -/
def submitVoteTally (g : Game) (voter : Player) (target : Option Player) : Game :=
  let previous := getVote g.votes voter.pid
  let g1 := { g with votes := setVote g.votes voter.pid (target.map Player.pid) }
  let alive := aliveIds g1
  let tally := tallyPairs g1.votes alive
  let majority := alive.length / 2 + 1
  resolveMajority (logVoteChange g1 voter target previous) tally majority

/-- Python `submit_vote` endpoint: rejection checks in source order,
then the record/tally core. -/
def submitVote (g : Game) (voterId : String) (targetId : Option String) :
    Except String Game :=
  if g.status ≠ "in_progress" then
    .error "Voting is only available during the game."
  else if g.workflowStage ≠ "discussion" then
    .error "Voting is only allowed during the day discussion."
  else match findPlayer g voterId with
  | none => .error "Player not found in this game."
  | some voter =>
    if ¬ voter.isAlive then .error "Eliminated players cannot vote."
    else if targetId == some voter.pid then .error "You cannot vote for yourself."
    else match targetId with
      | some tid =>
        match findPlayer g tid with
        | none => .error "Target player not found or not alive."
        | some t =>
          if ¬ t.isAlive then .error "Target player not found or not alive."
          else .ok (submitVoteTally g voter (some t))
      | none => .ok (submitVoteTally g voter none)

/-- Dict assignment `game.werewolf_votes[k] = v`. -/
def setWolfVote (wv : List (String × String)) (k v : String) : List (String × String) :=
  if wv.any (fun e => e.1 == k) then
    wv.map (fun e => if e.1 == k then (k, v) else e)
  else wv ++ [(k, v)]

/-- Python `game.werewolf_votes.get(wolf.id)`. -/
def lookupWolfVote (wv : List (String × String)) (k : String) : Option String :=
  (wv.find? (fun e => e.1 == k)).map Prod.snd

/-- Python `wolf_vote` endpoint. -/
def wolfVote (g : Game) (playerId targetId : String) : Except String Game :=
  if g.status ≠ "in_progress" ∨ g.workflowStage ≠ "night" then
    .error "Werewolves act only at night."
  else match findPlayer g playerId with
  | none => .error "Player not found in this game."
  | some wolf =>
    if ¬ wolf.isAlive ∨ wolf.role ≠ some "werewolf" then
      .error "Only alive werewolves can choose a target."
    else if g.nightStage.getD "wolves" ≠ "wolves" then
      .error "Werewolf actions have already been processed."
    else match findPlayer g targetId with
    | none => .error "Target not found or not alive."
    | some t =>
      if ¬ t.isAlive then .error "Target not found or not alive."
      else if t.role = some "werewolf" then
        .error "Werewolves cannot attack a packmate."
      else .ok { g with werewolfVotes := setWolfVote g.werewolfVotes wolf.pid t.pid }

/-- Contract of `random.choice` (and of the AI decision hooks, whose
results the engine validates against the candidate list and replaces by
a uniform random candidate on failure): a `pick` function returns a
member of every nonempty list and `none` exactly on the empty list. -/
def ValidPick (pick : List String → Option String) : Prop :=
  ∀ l : List String, (pick l = none ↔ l = []) ∧ ∀ x, pick l = some x → x ∈ l

/-- Concrete pick used for witnesses: take the head. -/
def headPick (l : List String) : Option String :=
  l.head?

/-- Targets of the valid werewolf votes, one occurrence per voting alive
wolf, in `alive_werewolves()` order (the tally loop of
`_resolve_wolf_target`). -/
def wolfTallyList (g : Game) : List String :=
  (aliveWerewolves g).filterMap (fun w =>
    match lookupWolfVote g.werewolfVotes w.pid with
    | some t => if t ∈ (aliveVillagers g).map Player.pid then some t else none
    | none => none)

/-- Candidates tied at the top of the werewolf tally, in dict insertion
order (the list comprehension over `tally.items()`). -/
def wolfTopCandidates (g : Game) : List String :=
  let l := wolfTallyList g
  let counts := (firstDedup l).map (fun t => (t, l.count t))
  let top := (counts.map Prod.snd).foldr max 0
  (counts.filter (fun e => e.2 == top)).map Prod.fst

/-- Python `Game._resolve_wolf_target`: `none` when no valid vote was
cast, otherwise a random choice among the tied top targets. -/
def resolveWolfTarget (pick : List String → Option String) (g : Game) : Option Player :=
  if (wolfTallyList g).isEmpty then none
  else match pick (wolfTopCandidates g) with
    | some tid => findPlayer g tid
    | none => none

/-- One iteration of the AI fallback loop at the top of
`Game._execute_wolf_stage`: an alive AI wolf without a registered vote
gets a hook-chosen (validated, random on failure) alive villager,
skipped when no villager is left.  `AIPlayer.choose_wolf_target` of
`player.py` is inlined here. -/
def wolfFallbackStep (pick : List String → Option String) (acc : Game) (w : Player) : Game :=
  if w.isAI ∧ w.isAlive ∧ lookupWolfVote acc.werewolfVotes w.pid = none then
    match pick ((aliveVillagers acc).map Player.pid) with
    | some c => { acc with werewolfVotes := setWolfVote acc.werewolfVotes w.pid c }
    | none => acc
  else acc

/-- AI fallback loop of `Game._execute_wolf_stage`, over the wolves list
captured at stage entry. -/
def aiWolfFallback (pick : List String → Option String) (g : Game) : Game :=
  (aliveWerewolves g).foldl (wolfFallbackStep pick) g

/-- Python `Game._execute_wolf_stage`. -/
def executeWolfStage (pick : List String → Option String) (g : Game) : Game :=
  if (aliveWerewolves g).isEmpty ∨ (aliveVillagers g).isEmpty then
    recordEvent { g with lastNightKillId := none }
      "The night passed quietly. No villagers were harmed." (some "night")
  else
    let g1 := aiWolfFallback pick g
    match resolveWolfTarget pick g1 with
    | some t =>
      let g2 := mapPlayer g1 t.pid (fun p => { p with isAlive := false })
      recordEvent { g2 with lastNightKillId := some t.pid }
        ("Werewolves eliminated " ++ t.name ++ " under the moonlight.") (some "night")
    | none =>
      recordEvent { g1 with lastNightKillId := none }
        "The night passed quietly. No villagers were harmed." (some "night")

/-- Investigation note appended by the detective stage; it mentions the
observed player by name and nothing else. -/
def inspectNote (p : Player) : String :=
  "You inspected " ++ p.name ++ "."

/-- Cap of the detective notes: keep the most recent 5. -/
def capNotes (l : List String) : List String :=
  if 5 < l.length then l.drop (l.length - 5) else l

/-- Python `Game._execute_detective_stage`; the AI choice hook
(`AIPlayer.choose_detective_target`, validated then random fallback) and
the uniform random suspect fallback both go through `pick`. -/
def executeDetectiveStage (pick : List String → Option String) (g : Game) : Game :=
  match g.detectiveId.bind (findPlayer g) with
  | none => { g with detectiveTarget := none }
  | some d =>
    if ¬ d.isAlive then { g with detectiveTarget := none }
    else
      let g1 :=
        if d.isAI ∧ g.detectiveTarget = none then
          match pick (((alivePlayers g).filter (fun p => p.pid ≠ d.pid)).map Player.pid) with
          | some c => { g with detectiveTarget := some c }
          | none => g
        else g
      let observed : Option Player :=
        match g1.detectiveTarget.bind (findPlayer g1) with
        | some c => if c.isAlive then some c else none
        | none => none
      let observed2 : Option Player :=
        match observed with
        | some o => some o
        | none =>
          (pick (((alivePlayers g1).filter (fun p => p.pid ≠ d.pid)).map Player.pid)).bind
            (findPlayer g1)
      let g2 :=
        match observed2 with
        | some o =>
          mapPlayer g1 d.pid (fun p =>
            { p with privateNotes := capNotes (p.privateNotes ++ [inspectNote o]) })
        | none => g1
      { g2 with detectiveTarget := none }

/-- Python `Game._execute_summary_stage`. -/
def executeSummaryStage (g : Game) : Game :=
  let g1 := { g with werewolfVotes := [], detectiveTarget := none, lastNightKillId := none }
  match evaluateVictory g1 with
  | (true, g2) => { g2 with nightStage := none }
  | (false, g2) => { prepareTurnOrder g2 with nightStage := none }

/-- Python `Game.advance_night_stage`: reject outside night, then run
exactly one stage and return the token describing it. -/
def advanceNightStage (pick : List String → Option String) (g : Game) :
    Except String (Game × String) :=
  if g.workflowStage ≠ "night" then .error "Night actions are not active."
  else match evaluateVictory g with
  | (true, g1) => .ok ({ g1 with nightStage := none }, "ended")
  | (false, g1) =>
    let stage := g1.nightStage.getD "wolves"
    if stage = "wolves" then
      let g2 := executeWolfStage pick g1
      match evaluateVictory g2 with
      | (true, g3) => .ok ({ g3 with nightStage := none }, "ended")
      | (false, g3) => .ok ({ g3 with nightStage := some "detective" }, "detective")
    else if stage = "detective" then
      .ok ({ executeDetectiveStage pick g1 with nightStage := some "summary" }, "summary")
    else if stage = "summary" then
      .ok (executeSummaryStage g1, "complete")
    else
      .ok ({ g1 with nightStage := some "wolves" }, "wolves")

/-- Python `str.strip()`: drop whitespace at both ends.  Structural
stand-in for `String.trim`, whose library implementation is defined by
well-founded recursion and does not reduce inside the kernel. -/
def stripStr (s : String) : String :=
  ⟨((s.data.dropWhile Char.isWhitespace).reverse.dropWhile Char.isWhitespace).reverse⟩

/-- Constructor of a fresh player (uuid passed as a parameter). -/
def newPlayer (pid name : String) (isHost isAI : Bool) : Player :=
  ⟨pid, name, isHost, isAI, none, true, [], []⟩

/-- Python `Game.__init__` via `create_game` (join code not modelled). -/
def newGame (hostName hostId : String) : Game :=
  { hostId := hostId, status := "waiting", workflowStage := "lobby",
    nightStage := none, roundNumber := 0,
    players := [newPlayer hostId hostName true false],
    joinSequence := [hostId], turnOrder := [], currentTurnIndex := none,
    votes := [], werewolfVotes := [], detectiveId := none,
    detectiveTarget := none, werewolfIds := [], lastNightKillId := none,
    victoryTeam := none, victoryMessage := none, events := [] }

/-- Python `join_game` endpoint (session response not modelled). -/
def joinGame (g : Game) (playerName newId : String) : Except String Game :=
  if g.status ≠ "waiting" then .error "Game already started."
  else if stripStr playerName = "" then .error "Player name cannot be empty."
  else
    let p := newPlayer newId (stripStr playerName) false false
    let g1 := { g with players := dictInsert g.players p }
    .ok (if newId ∈ g1.joinSequence then g1
         else { g1 with joinSequence := g1.joinSequence ++ [newId] })

/-- Candidate scan of `add_ai_player`: try `base`, then `base 2`,
`base 3`, ... until the name is free.  The fuel (strictly more than the
number of existing names) always suffices because the candidates are
pairwise distinct. -/
def freshNameAux : Nat → List String → String → Nat → String
  | 0, _, base, n => base ++ " " ++ toString n
  | fuel + 1, existing, base, n =>
    let cand := if n = 1 then base else base ++ " " ++ toString n
    if cand ∈ existing then freshNameAux fuel existing base (n + 1) else cand

/-- Python `add_ai_player` endpoint. -/
def addAIPlayer (g : Game) (hostPlayerId : String) (aiName : Option String)
    (newId : String) : Except String Game :=
  match findPlayer g hostPlayerId with
  | none => .error "Player not found in this game."
  | some host =>
    if ¬ host.isHost then .error "Only the host can add AI players."
    else if g.status ≠ "waiting" then .error "Cannot add AI players after the game starts."
    else
      let base0 := stripStr (aiName.getD "")
      let base :=
        if base0 = "" then
          "AI Agent " ++ toString ((g.players.filter (fun p => p.isAI)).length + 1)
        else base0
      let existing := g.players.map Player.name
      let cand := freshNameAux (existing.length + 1) existing base 1
      let p := newPlayer newId cand false true
      let g1 := { g with players := dictInsert g.players p }
      let g2 := if newId ∈ g1.joinSequence then g1
                else { g1 with joinSequence := g1.joinSequence ++ [newId] }
      .ok (recordEvent g2 (cand ++ " joined the lobby.") (some "lobby"))

/-- Python `remove_player` endpoint. -/
def removePlayer (g : Game) (hostPlayerId targetPlayerId : String) : Except String Game :=
  match findPlayer g hostPlayerId with
  | none => .error "Player not found in this game."
  | some host =>
    if ¬ host.isHost then .error "Only the host can remove players."
    else if g.status ≠ "waiting" then
      .error "Players can only be removed in the lobby before the game starts."
    else if targetPlayerId = g.hostId then .error "Cannot remove the host."
    else match findPlayer g targetPlayerId with
    | none => .error "Target player not found."
    | some target =>
      let g1 := { g with
        players := g.players.filter (fun p => p.pid ≠ targetPlayerId),
        joinSequence := g.joinSequence.filter (fun pid => pid ≠ targetPlayerId),
        turnOrder := g.turnOrder.filter (fun pid => pid ≠ targetPlayerId),
        votes := g.votes.filter (fun e => e.1 ≠ targetPlayerId ∧ e.2 ≠ some targetPlayerId) }
      .ok (recordEvent g1 (target.name ++ " was removed from the lobby by the host.")
        (some "lobby"))

/-- Python `_assign_roles`: `shuffled` is the result of
`random.shuffle(list(game.players.keys()))` and `wolfSample` the result
of `random.sample(remaining, min(k, len(remaining)))`; theorems state
their defining properties as hypotheses.  The unreachable empty-shuffle
branch models the `IndexError` a `pop()` on an empty list would raise. -/
def assignRoles (g : Game) (shuffled wolfSample : List String) : Except String Game :=
  if g.players.length < 4 then .error "Need at least 4 players for Mafia."
  else match shuffled.getLast? with
  | none => .error "internal: empty player list"
  | some detId =>
    let g1 : Game := { g with players := g.players.map (fun p =>
      { p with role := some "civilian", isAlive := true,
               privateNotes := [], knownAllies := [] }) }
    let g2 : Game := { mapPlayer g1 detId (fun p => { p with role := some "detective" }) with
                       detectiveId := some detId }
    let g3 : Game := { g2 with players := g2.players.map (fun p =>
      if p.pid ∈ wolfSample then { p with role := some "werewolf" } else p) }
    let g4 : Game := { g3 with players := g3.players.map (fun p =>
      if p.pid ∈ wolfSample then
        { p with knownAllies :=
            ((wolfSample.filter (fun a => a ≠ p.pid)).filterMap
              (fun a => (findPlayer g3 a).map Player.name)) }
      else p) }
    let g5 := { g4 with werewolfIds := wolfSample, status := "in_progress",
                        roundNumber := 0, turnOrder := [], currentTurnIndex := none,
                        victoryTeam := none, victoryMessage := none,
                        events := [], votes := [] }
    .ok (startNight g5 (some "Roles assigned. Night falls over the village."))

/-- Role a player ends up with after `_assign_roles` ran with detective
`detId` and werewolf sample `ws` (the wolf branch wins when both match,
mirroring the assignment order of the source). -/
def assignedRole (detId : String) (ws : List String) (p : Player) : Option String :=
  if p.pid ∈ ws then some "werewolf"
  else if p.pid = detId then some "detective"
  else some "civilian"

/-- Number of players currently holding role `r`. -/
def countRole (g : Game) (r : String) : Nat :=
  (g.players.filter (fun p => p.role == some r)).length

/-- Python `start_game` endpoint. -/
def startGame (g : Game) (playerId : String) (shuffled wolfSample : List String) :
    Except String Game :=
  match findPlayer g playerId with
  | none => .error "Player not found in this game."
  | some host =>
    if ¬ host.isHost then .error "Only the host can start the game."
    else if g.players.length < 4 then .error "Need at least 4 players to start."
    else if g.status ≠ "waiting" then .error "Game already started."
    else assignRoles g shuffled wolfSample

/-- Python `advance_turn` endpoint. -/
def advanceTurn (g : Game) (playerId : String) : Except String Game :=
  match findPlayer g playerId with
  | none => .error "Player not found in this game."
  | some host =>
    if ¬ host.isHost then .error "Only the host can advance turns."
    else if g.status ≠ "in_progress" then
      .error "Cannot advance turns unless the game is active."
    else if g.workflowStage ≠ "discussion" then
      .error "Discussion is not active. Resolve the night first."
    else if g.turnOrder.isEmpty then
      .error "No speakers available. Resolve the night again."
    else match g.currentTurnIndex with
    | none => .ok { g with currentTurnIndex := some 0 }
    | some i =>
      if i < g.turnOrder.length - 1 then .ok { g with currentTurnIndex := some (i + 1) }
      else .error "All players have spoken. Close the day to continue."

/-- Python `detective_select` endpoint. -/
def detectiveSelect (g : Game) (playerId targetPlayerId : String) : Except String Game :=
  if g.status ≠ "in_progress" ∨ g.workflowStage ≠ "night" then
    .error "Detective acts only at night."
  else match g.detectiveId with
  | none => .error "This game has no detective."
  | some did =>
    match findPlayer g playerId with
    | none => .error "Player not found in this game."
    | some d =>
      if d.pid ≠ did then .error "Only the detective can inspect."
      else if ¬ d.isAlive then .error "Eliminated detective cannot inspect."
      else if g.nightStage.getD "wolves" ≠ "detective" then
        .error "Detective actions are not available right now."
      else match findPlayer g targetPlayerId with
      | none => .error "Target not found or not alive."
      | some t =>
        if ¬ t.isAlive then .error "Target not found or not alive."
        else if t.pid = d.pid then .error "Detective cannot inspect themselves."
        else .ok { g with detectiveTarget := some t.pid }

/-- Python `advance_night` endpoint (host wrapper of
`Game.advance_night_stage`; `resolve_night` delegates here). -/
def advanceNight (pick : List String → Option String) (g : Game) (playerId : String) :
    Except String Game :=
  match findPlayer g playerId with
  | none => .error "Player not found in this game."
  | some host =>
    if ¬ host.isHost then .error "Only the host can advance the night."
    else if g.status ≠ "in_progress" then .error "Game is not running."
    else if g.workflowStage ≠ "night" then .error "Night actions are already complete."
    else (advanceNightStage pick g).map Prod.fst

/-- Python `finish_round` endpoint. -/
def finishRound (g : Game) (playerId : String) : Except String Game :=
  match findPlayer g playerId with
  | none => .error "Player not found in this game."
  | some host =>
    if ¬ host.isHost then .error "Only the host can finish the round."
    else if g.status ≠ "in_progress" then .error "Cannot finish the round right now."
    else if g.workflowStage ≠ "discussion" then .error "Only discussions can be closed."
    else .ok (startNight g (some ("Day " ++ toString g.roundNumber ++
      " closes. Night " ++ toString (g.roundNumber + 1) ++ " begins.")))

/-- Python `reveal_game` endpoint: the host escape hatch force-ending a
running game. -/
def revealGame (g : Game) (playerId : String) : Except String Game :=
  match findPlayer g playerId with
  | none => .error "Player not found in this game."
  | some host =>
    if ¬ host.isHost then .error "Only the host can reveal players."
    else if g.status = "waiting" then .error "Game has not started."
    else if g.status ≠ "ended" then
      .ok (declareVictory g "host" "The host ended the night early. Roles are now visible.")
    else .ok g

/-- Unwrap a successful endpoint result (used to name the concrete
states of executed call traces; every use is backed by a proof that the
call indeed succeeded). -/
def runOk (e : Except String Game) : Game :=
  e.toOption.getD (newGame "" "")

/-- One externally triggered state-mutating operation of the engine,
excluding the host reveal escape hatch.  `trigger_ai_votes` re-enters
`submit_vote` (covered by `vote`), and the chat/speech/audio endpoints
touch only fields outside the model. -/
inductive StepCore : Game → Game → Prop where
  | join {g g2 : Game} (n i : String) :
      joinGame g n i = .ok g2 → StepCore g g2
  | addAI {g g2 : Game} (hid : String) (n : Option String) (i : String) :
      addAIPlayer g hid n i = .ok g2 → StepCore g g2
  | remove {g g2 : Game} (hid t : String) :
      removePlayer g hid t = .ok g2 → StepCore g g2
  | startG {g g2 : Game} (p : String) (sh ws : List String) :
      startGame g p sh ws = .ok g2 → StepCore g g2
  | turn {g g2 : Game} (p : String) :
      advanceTurn g p = .ok g2 → StepCore g g2
  | wolf {g g2 : Game} (p t : String) :
      wolfVote g p t = .ok g2 → StepCore g g2
  | detSel {g g2 : Game} (p t : String) :
      detectiveSelect g p t = .ok g2 → StepCore g g2
  | night {g g2 : Game} (pick : List String → Option String) (p : String) :
      ValidPick pick → advanceNight pick g p = .ok g2 → StepCore g g2
  | finish {g g2 : Game} (p : String) :
      finishRound g p = .ok g2 → StepCore g g2
  | vote {g g2 : Game} (v : String) (t : Option String) :
      submitVote g v t = .ok g2 → StepCore g g2
  | respond {g : Game} : StepCore g (buildResponseFilter g)

/-- Game states reachable through the engine without the host reveal
escape hatch. -/
inductive ReachableNR : Game → Prop where
  | init (hn hid : String) : ReachableNR (newGame hn hid)
  | step {g g2 : Game} : ReachableNR g → StepCore g g2 → ReachableNR g2

/-- Game states reachable through the engine, reveal included. -/
inductive Reachable : Game → Prop where
  | init (hn hid : String) : Reachable (newGame hn hid)
  | step {g g2 : Game} : Reachable g → StepCore g g2 → Reachable g2
  | reveal {g g2 : Game} (p : String) :
      Reachable g → revealGame g p = .ok g2 → Reachable g2

/-- Claimed invariant: the night sub-stage is set exactly while the
workflow stage is `night`. -/
def InvNight (g : Game) : Prop :=
  g.nightStage ≠ none ↔ g.workflowStage = "night"

/-- Auxiliary structural invariants of reachable states: player ids are
unique (uuid dict keys) and every player appears in the join sequence. -/
def GoodState (g : Game) : Prop :=
  InvNight g ∧ (g.players.map Player.pid).Nodup ∧ ∀ p ∈ g.players, p.pid ∈ g.joinSequence

/-- Executed trace A (for the reveal-during-night counterexample): a
four-player game is created, started, and revealed while the first night
is still in its wolves stage. -/
def gA0 : Game := newGame "H" "h"

/-- Trace A after P1 joins. -/
def gA1 : Game := runOk (joinGame gA0 "P1" "p1")

/-- Trace A after P2 joins. -/
def gA2 : Game := runOk (joinGame gA1 "P2" "p2")

/-- Trace A after P3 joins. -/
def gA3 : Game := runOk (joinGame gA2 "P3" "p3")

/-- Trace A after the host starts the game (shuffle makes the host the
detective and samples P1 as the single wolf). -/
def gA4 : Game := runOk (startGame gA3 "h" ["p1", "p2", "p3", "h"] ["p1"])

/-- Trace A after the host reveals during the first night. -/
def gA5 : Game := runOk (revealGame gA4 "h")

/-- Executed trace B (for the dead-voter-entry counterexample): a
five-player game with the host as the only werewolf runs through a quiet
first night into discussion, where P1 votes and is then voted out. -/
def gB0 : Game := newGame "H" "h"

/-- Trace B after P1 joins. -/
def gB1 : Game := runOk (joinGame gB0 "P1" "p1")

/-- Trace B after P2 joins. -/
def gB2 : Game := runOk (joinGame gB1 "P2" "p2")

/-- Trace B after P3 joins. -/
def gB3 : Game := runOk (joinGame gB2 "P3" "p3")

/-- Trace B after P4 joins. -/
def gB4 : Game := runOk (joinGame gB3 "P4" "p4")

/-- Trace B after the host starts the game (P4 detective, host the only
werewolf). -/
def gB5 : Game := runOk (startGame gB4 "h" ["p1", "p2", "p3", "h", "p4"] ["h"])

/-- Trace B after the wolves stage (the human wolf cast no vote, so the
night is quiet). -/
def gB6 : Game := runOk (advanceNight headPick gB5 "h")

/-- Trace B after the detective stage. -/
def gB7 : Game := runOk (advanceNight headPick gB6 "h")

/-- Trace B after the summary stage: day 1 discussion opens. -/
def gB8 : Game := runOk (advanceNight headPick gB7 "h")

/-- Trace B after P1 votes for the host. -/
def gB9 : Game := runOk (submitVote gB8 "p1" (some "h"))

/-- Trace B after the host votes for P1. -/
def gB10 : Game := runOk (submitVote gB9 "h" (some "p1"))

/-- Trace B after P2 votes for P1. -/
def gB11 : Game := runOk (submitVote gB10 "p2" (some "p1"))

/-- Trace B after P3 votes for P1: P1 reaches the majority of 3 among 5
alive players and is eliminated; the next night starts. -/
def gB12 : Game := runOk (submitVote gB11 "p3" (some "p1"))

theorem findPlayer_pid {g : Game} {i : String} {p : Player}
    (h : findPlayer g i = some p) : p.pid = i := by
  unfold findPlayer at h
  simpa using List.find?_some h

theorem findPlayer_mem {g : Game} {i : String} {p : Player}
    (h : findPlayer g i = some p) : p ∈ g.players := by
  unfold findPlayer at h
  exact List.mem_of_find?_eq_some h

theorem findPlayer_of_mem {g : Game} {p : Player}
    (hnd : (g.players.map Player.pid).Nodup) (hp : p ∈ g.players) :
    findPlayer g p.pid = some p := by
  unfold findPlayer
  cases hfind : g.players.find? (fun x => x.pid == p.pid) with
  | none =>
    exfalso
    have := List.find?_eq_none.mp hfind p hp
    simp at this
  | some q =>
    have hqm : q ∈ g.players := List.mem_of_find?_eq_some hfind
    have hqp : q.pid = p.pid := by simpa using List.find?_some hfind
    have : q = p := List.inj_on_of_nodup_map hnd hqm hp hqp
    rw [this]

theorem buildResponseFilter_players_status (g : Game) :
    (buildResponseFilter g).players = g.players ∧
    (buildResponseFilter g).status = g.status := by
  unfold buildResponseFilter
  dsimp only
  split
  · split <;> first | exact ⟨rfl, rfl⟩ | (split <;> exact ⟨rfl, rfl⟩)
  · exact ⟨rfl, rfl⟩

/-- C10: while the game status is not `ended`, every entry of the public
player list inside the game-state response has a `null` role, alive or
dead alike, so eliminations never reveal roles through the public
state. -/
theorem c10_public_roles_hidden (g : Game) (h : g.status ≠ "ended") :
    (∀ e ∈ playerList g, e.role = none) ∧ ∀ e ∈ responsePlayers g, e.role = none := by
  have hmain : ∀ g2 : Game, g2.status ≠ "ended" → ∀ e ∈ playerList g2, e.role = none := by
    intro g2 h2 e he
    unfold playerList at he
    rcases List.mem_map.mp he with ⟨p, _, rfl⟩
    simp [h2]
  refine ⟨hmain g h, ?_⟩
  unfold responsePlayers
  refine hmain _ ?_
  rw [(buildResponseFilter_players_status g).2]
  exact h

/-- C10 witness: a freshly created waiting game hides all roles. -/
theorem c10_public_roles_hidden_witness :
    (∀ e ∈ playerList (newGame "H" "h"), e.role = none) ∧
    ∀ e ∈ responsePlayers (newGame "H" "h"), e.role = none :=
  c10_public_roles_hidden (newGame "H" "h") (by decide)

/-- C8: a self-vote is always rejected by `submit_vote` with an error
(hence the votes map of the failed call is unchanged), and a werewolf
night vote whose target is any werewolf, the voter included, is always
rejected by `wolf_vote` (hence `werewolfVotes` is unchanged). -/
theorem c8_no_self_targeting (g : Game) (v t : String) :
    (∃ e, submitVote g v (some v) = .error e) ∧
    ∀ p, findPlayer g t = some p → p.role = some "werewolf" →
      ∃ e, wolfVote g v t = .error e := by
  constructor
  · unfold submitVote
    split
    · exact ⟨_, rfl⟩
    · split
      · exact ⟨_, rfl⟩
      · cases hv : findPlayer g v with
        | none => exact ⟨_, rfl⟩
        | some voter =>
          by_cases ha : voter.isAlive
          · have : (some v == some voter.pid) = true := by
              simp [findPlayer_pid hv]
            simp [ha, this]
          · simp [ha]
  · intro p hp hrole
    unfold wolfVote
    split
    · exact ⟨_, rfl⟩
    · cases hw : findPlayer g v with
      | none => exact ⟨_, rfl⟩
      | some wolf =>
        split
        · exact ⟨_, rfl⟩
        · split
          · exact ⟨_, rfl⟩
          · rw [hp]
            by_cases ht : p.isAlive
            · simp only [ht, hrole, not_true, if_false, if_true]
              split <;> exact ⟨_, rfl⟩
            · simp only [ht, not_false_iff, if_true]
              split <;> exact ⟨_, rfl⟩

/-- C8 witness: concrete rejections in the four-player night game of
trace A (host self-vote; wolf targeting the wolf P1). -/
theorem c8_no_self_targeting_witness :
    (∃ e, submitVote gA4 "h" (some "h") = .error e) ∧
    ∃ e, wolfVote gA4 "p1" "p1" = .error e := by
  refine ⟨(c8_no_self_targeting gA4 "h" "p1").1, ?_⟩
  refine (c8_no_self_targeting gA4 "p1" "p1").2
    ⟨"p1", "P1", false, false, some "werewolf", true, [], []⟩ ?_ ?_
  · decide
  · decide

theorem declareVictory_fields (g : Game) (team msg : String) :
    (declareVictory g team msg).status = "ended" ∧
    (declareVictory g team msg).workflowStage = "ended" ∧
    (declareVictory g team msg).victoryTeam = some team ∧
    (declareVictory g team msg).victoryMessage = some msg ∧
    (declareVictory g team msg).events = g.events ++ [⟨msg, "ended"⟩] ∧
    (declareVictory g team msg).players = g.players ∧
    (declareVictory g team msg).nightStage = g.nightStage ∧
    (declareVictory g team msg).joinSequence = g.joinSequence ∧
    (declareVictory g team msg).votes = g.votes :=
  ⟨rfl, rfl, rfl, rfl, rfl, rfl, rfl, rfl, rfl⟩

theorem isEmpty_eq_length_beq (l : List Player) : l.isEmpty = (l.length == 0) := by
  cases l <;> rfl

/-- C3: the victory evaluator decides from alive-role counts alone;
zero alive werewolves means a village win, at least one alive werewolf
matching or outnumbering the alive non-werewolves means a werewolf win,
anything else leaves the game untouched; every win stamps status,
workflow stage, team, message, and appends the event; and the two win
conditions can never hold together. -/
theorem c3_victory_evaluator (g : Game) :
    ((aliveWerewolves g).length = 0 →
      (evaluateVictory g).1 = true ∧
      (evaluateVictory g).2.victoryTeam = some "village" ∧
      (evaluateVictory g).2.status = "ended" ∧
      (evaluateVictory g).2.workflowStage = "ended" ∧
      (evaluateVictory g).2.victoryMessage = some "The town prevails! No werewolves remain." ∧
      (evaluateVictory g).2.events =
        g.events ++ [⟨"The town prevails! No werewolves remain.", "ended"⟩]) ∧
    (1 ≤ (aliveWerewolves g).length →
      (aliveVillagers g).length ≤ (aliveWerewolves g).length →
      (evaluateVictory g).1 = true ∧
      (evaluateVictory g).2.victoryTeam = some "werewolves" ∧
      (evaluateVictory g).2.status = "ended" ∧
      (evaluateVictory g).2.workflowStage = "ended" ∧
      (evaluateVictory g).2.victoryMessage = some "The pack overpowers the town. Wolves win." ∧
      (evaluateVictory g).2.events =
        g.events ++ [⟨"The pack overpowers the town. Wolves win.", "ended"⟩]) ∧
    (1 ≤ (aliveWerewolves g).length →
      (aliveWerewolves g).length < (aliveVillagers g).length →
      (evaluateVictory g).1 = false ∧ (evaluateVictory g).2 = g) ∧
    ¬ ((aliveWerewolves g).length = 0 ∧ 1 ≤ (aliveWerewolves g).length) ∧
    (∀ g2 : Game, (aliveWerewolves g2).length = (aliveWerewolves g).length →
      (aliveVillagers g2).length = (aliveVillagers g).length →
      (evaluateVictory g2).1 = (evaluateVictory g).1 ∧
      victoryOutcome g2 = victoryOutcome g) := by
  have hbr : ∀ g1 : Game, (aliveWerewolves g1).length = 0 →
      evaluateVictory g1 =
        (true, declareVictory g1 "village" "The town prevails! No werewolves remain.") := by
    intro g1 h0
    unfold evaluateVictory
    have : (aliveWerewolves g1).isEmpty = true := by
      rw [isEmpty_eq_length_beq, h0]
      rfl
    simp [this]
  have hbw : ∀ g1 : Game, 1 ≤ (aliveWerewolves g1).length →
      (aliveVillagers g1).length ≤ (aliveWerewolves g1).length →
      evaluateVictory g1 =
        (true, declareVictory g1 "werewolves" "The pack overpowers the town. Wolves win.") := by
    intro g1 h1 h2
    unfold evaluateVictory
    have : (aliveWerewolves g1).isEmpty = false := by
      rw [isEmpty_eq_length_beq]
      simp only [beq_eq_false_iff_ne]
      omega
    simp [this, h2]
  have hbn : ∀ g1 : Game, 1 ≤ (aliveWerewolves g1).length →
      (aliveWerewolves g1).length < (aliveVillagers g1).length →
      evaluateVictory g1 = (false, g1) := by
    intro g1 h1 h2
    unfold evaluateVictory
    have he : (aliveWerewolves g1).isEmpty = false := by
      rw [isEmpty_eq_length_beq]
      simp only [beq_eq_false_iff_ne]
      omega
    have hlt : ¬ (aliveVillagers g1).length ≤ (aliveWerewolves g1).length := by omega
    simp [he, hlt]
  refine ⟨?_, ?_, ?_, ?_, ?_⟩
  · intro h0
    rw [hbr g h0]
    exact ⟨rfl, rfl, rfl, rfl, rfl, rfl⟩
  · intro h1 h2
    rw [hbw g h1 h2]
    exact ⟨rfl, rfl, rfl, rfl, rfl, rfl⟩
  · intro h1 h2
    rw [hbn g h1 h2]
    exact ⟨rfl, rfl⟩
  · intro h
    omega
  · intro g2 hw hv
    rcases Nat.eq_zero_or_pos (aliveWerewolves g).length with h0 | h1
    · rw [hbr g h0, hbr g2 (hw.trans h0)]
      unfold victoryOutcome
      rw [hbr g h0, hbr g2 (hw.trans h0)]
      exact ⟨rfl, rfl⟩
    · by_cases h2 : (aliveVillagers g).length ≤ (aliveWerewolves g).length
      · rw [hbw g h1 h2, hbw g2 (hw ▸ h1) (by omega)]
        unfold victoryOutcome
        rw [hbw g h1 h2, hbw g2 (hw ▸ h1) (by omega)]
        exact ⟨rfl, rfl⟩
      · rw [hbn g h1 (by omega), hbn g2 (hw ▸ h1) (by omega)]
        unfold victoryOutcome
        rw [hbn g h1 (by omega), hbn g2 (hw ▸ h1) (by omega)]
        exact ⟨rfl, rfl⟩

/-- C3 witness: in trace A after the reveal nothing more is claimed, so
use the started game of trace A, where one wolf faces three villagers
and the evaluator reports no winner. -/
theorem c3_victory_evaluator_witness :
    (evaluateVictory gA4).1 = false ∧ (evaluateVictory gA4).2 = gA4 :=
  (c3_victory_evaluator gA4).2.2.1 (by decide) (by decide)

/-- Alive filter used on the join sequence by `_prepare_turn_order`. -/
theorem c5_helper_filter_spec (g : Game) :
    (prepareTurnOrder g).turnOrder = g.joinSequence.filter (fun pid =>
      match findPlayer g pid with
      | some p => p.isAlive
      | none => false) := by
  unfold prepareTurnOrder
  dsimp only
  split <;> rfl

/-- C5: on every discussion entry the computed turn order is exactly the
join sequence filtered to the currently alive players, in join order;
when somebody is alive the discussion opens with a fresh round, and when
nobody is alive the engine routes back to night instead. -/
theorem c5_turn_order_determinism (g : Game) :
    ((prepareTurnOrder g).turnOrder = g.joinSequence.filter (fun pid =>
      match findPlayer g pid with
      | some p => p.isAlive
      | none => false)) ∧
    (g.joinSequence.filter (fun pid =>
        match findPlayer g pid with
        | some p => p.isAlive
        | none => false) ≠ [] →
      (prepareTurnOrder g).workflowStage = "discussion" ∧
      (prepareTurnOrder g).roundNumber = g.roundNumber + 1 ∧
      (prepareTurnOrder g).currentTurnIndex = some 0 ∧
      (prepareTurnOrder g).votes = []) ∧
    (g.joinSequence.filter (fun pid =>
        match findPlayer g pid with
        | some p => p.isAlive
        | none => false) = [] →
      (prepareTurnOrder g).workflowStage = "night" ∧
      (prepareTurnOrder g).currentTurnIndex = none ∧
      (prepareTurnOrder g).roundNumber = g.roundNumber ∧
      (prepareTurnOrder g).votes = []) ∧
    ((∀ p ∈ g.players, p.pid ∈ g.joinSequence) →
      (g.players.map Player.pid).Nodup →
      (g.joinSequence.filter (fun pid =>
        match findPlayer g pid with
        | some p => p.isAlive
        | none => false) = [] ↔ alivePlayers g = [])) := by
  refine ⟨c5_helper_filter_spec g, ?_, ?_, ?_⟩
  · intro hne
    unfold prepareTurnOrder
    dsimp only
    rw [if_neg (by simpa using hne)]
    exact ⟨rfl, rfl, rfl, rfl⟩
  · intro he
    unfold prepareTurnOrder
    dsimp only
    rw [if_pos (by simpa using he)]
    exact ⟨rfl, rfl, rfl, rfl⟩
  · intro hsub hnd
    constructor
    · intro he
      by_contra hne
      obtain ⟨p, hp⟩ := List.exists_mem_of_ne_nil _ hne
      have hpm : p ∈ g.players := List.mem_of_mem_filter hp
      have hpa : p.isAlive := by
        have := List.of_mem_filter hp
        simpa using this
      have hjoin : p.pid ∈ g.joinSequence := hsub p hpm
      have hfp : findPlayer g p.pid = some p := findPlayer_of_mem hnd hpm
      have : p.pid ∈ g.joinSequence.filter (fun pid =>
          match findPlayer g pid with
          | some p => p.isAlive
          | none => false) := by
        apply List.mem_filter.mpr
        refine ⟨hjoin, ?_⟩
        rw [hfp]
        exact hpa
      rw [he] at this
      exact absurd this (List.not_mem_nil _)
    · intro ha
      apply List.filter_eq_nil_iff.mpr
      intro pid _
      cases hfp : findPlayer g pid with
      | none => simp
      | some p =>
        have hpm : p ∈ g.players := findPlayer_mem hfp
        simp only
        by_contra halive
        have : p ∈ alivePlayers g := by
          apply List.mem_filter.mpr
          refine ⟨hpm, ?_⟩
          simpa using halive
        rw [ha] at this
        exact absurd this (List.not_mem_nil _)

/-- C5 witness: the summary stage of trace B enters day 1 with all five
players, in join order. -/
theorem c5_turn_order_determinism_witness :
    gB7.joinSequence.filter (fun pid =>
      match findPlayer gB7 pid with
      | some p => p.isAlive
      | none => false) ≠ [] ∧
    (prepareTurnOrder gB7).workflowStage = "discussion" ∧
    (prepareTurnOrder gB7).roundNumber = gB7.roundNumber + 1 ∧
    (prepareTurnOrder gB7).currentTurnIndex = some 0 ∧
    (prepareTurnOrder gB7).votes = [] :=
  ⟨by decide, (c5_turn_order_determinism gB7).2.1 (by decide)⟩

theorem startNight_fields (g : Game) (intro : Option String) :
    (startNight g intro).players = g.players ∧
    (startNight g intro).workflowStage = "night" ∧
    (startNight g intro).nightStage = some "wolves" ∧
    (startNight g intro).status = g.status ∧
    (startNight g intro).votes = g.votes ∧
    (startNight g intro).joinSequence = g.joinSequence ∧
    (startNight g intro).detectiveId = g.detectiveId ∧
    (startNight g intro).werewolfIds = g.werewolfIds ∧
    (startNight g intro).roundNumber = g.roundNumber ∧
    (startNight g intro).currentTurnIndex = none ∧
    (startNight g intro).turnOrder = [] ∧
    (startNight g intro).werewolfVotes = [] ∧
    (startNight g intro).detectiveTarget = none ∧
    (startNight g intro).lastNightKillId = none := by
  cases intro <;>
    exact ⟨rfl, rfl, rfl, rfl, rfl, rfl, rfl, rfl, rfl, rfl, rfl, rfl, rfl, rfl⟩

theorem find?_pid_map (l : List Player) (f : Player → Player)
    (hf : ∀ p, (f p).pid = p.pid) (a : String) :
    (l.map f).find? (fun p => p.pid == a) = (l.find? (fun p => p.pid == a)).map f := by
  induction l with
  | nil => rfl
  | cons x xs ih =>
    simp only [List.map_cons, List.find?_cons]
    rw [hf x]
    cases h : (x.pid == a) <;> simp [h, ih]

theorem find?_name_of_map (l : List Player) (f : Player → Player)
    (hpid : ∀ p, (f p).pid = p.pid) (hname : ∀ p, (f p).name = p.name) (a : String) :
    ((l.map f).find? (fun p => p.pid == a)).map Player.name =
    (l.find? (fun p => p.pid == a)).map Player.name := by
  rw [find?_pid_map l f hpid]
  cases l.find? (fun p => p.pid == a) <;> simp [hname]

theorem assignRoles_ok_players (g : Game) (shuffled ws : List String) (detId : String)
    (h4 : ¬ g.players.length < 4) (hlast : shuffled.getLast? = some detId) (g' : Game)
    (hok : assignRoles g shuffled ws = .ok g') :
    g'.players = g.players.map (fun p =>
      { p with
        role := assignedRole detId ws p,
        isAlive := true,
        privateNotes := [],
        knownAllies := if p.pid ∈ ws then
            (ws.filter (fun a => a ≠ p.pid)).filterMap
              (fun a => (findPlayer g a).map Player.name)
          else [] }) ∧
    g'.status = "in_progress" ∧ g'.workflowStage = "night" ∧
    g'.nightStage = some "wolves" ∧ g'.detectiveId = some detId ∧
    g'.werewolfIds = ws ∧ g'.votes = [] ∧ g'.joinSequence = g.joinSequence := by
  unfold assignRoles at hok
  rw [if_neg h4, hlast] at hok
  simp only at hok
  injection hok with hok
  subst hok
  refine ⟨?_, rfl, rfl, rfl, rfl, rfl, rfl, rfl⟩
  have hname3 : ∀ a : String,
      ((((g.players.map (fun p =>
          { p with role := some "civilian", isAlive := true,
                   privateNotes := [], knownAllies := [] })).map (fun p =>
          if p.pid == detId then { p with role := some "detective" } else p)).map (fun p =>
          if p.pid ∈ ws then { p with role := some "werewolf" } else p)).find?
            (fun p => p.pid == a)).map Player.name =
      (g.players.find? (fun p => p.pid == a)).map Player.name := by
    intro a
    rw [find?_name_of_map _ _ (fun q => by by_cases hq : q.pid ∈ ws <;> simp [hq])
      (fun q => by by_cases hq : q.pid ∈ ws <;> simp [hq])]
    rw [find?_name_of_map _ _ (fun q => by by_cases hq : (q.pid == detId) <;> simp [hq])
      (fun q => by by_cases hq : (q.pid == detId) <;> simp [hq])]
    rw [find?_name_of_map g.players (fun p =>
      { p with role := some "civilian", isAlive := true,
               privateNotes := [], knownAllies := [] }) (fun q => rfl) (fun q => rfl)]
  show ((((g.players.map _).map _).map _).map _) = _
  simp only [List.map_map]
  apply List.map_eq_map_iff.mpr
  intro p _
  simp only [Function.comp]
  by_cases hw : p.pid ∈ ws <;> by_cases hd : p.pid = detId
  · have hb : (p.pid == detId) = true := beq_iff_eq.mpr hd
    simp only [hb, hw, assignedRole, if_true, if_pos, Player.mk.injEq, true_and, and_true]
    apply List.filterMap_congr
    intro a _
    exact hname3 a
  · have hb : (p.pid == detId) = false := beq_eq_false_iff_ne.mpr hd
    simp only [hb, hw, assignedRole, Bool.false_eq_true, if_false, if_pos,
      Player.mk.injEq, true_and, and_true]
    apply List.filterMap_congr
    intro a _
    exact hname3 a
  · have hb : (p.pid == detId) = true := beq_iff_eq.mpr hd
    simp only [hb, hw, assignedRole, if_true, if_neg, Player.mk.injEq, true_and, and_true]
    simp [hw, hd]
    intro hin
    exact absurd hin (hd ▸ hw)
  · have hb : (p.pid == detId) = false := beq_eq_false_iff_ne.mpr hd
    simp only [hb, hw, assignedRole, Bool.false_eq_true, if_false, Player.mk.injEq,
      true_and, and_true]
    simp [hw, hd]

theorem length_filter_mem_eq (pids ws : List String) (hnd : pids.Nodup)
    (hws : ws.Nodup) (hsub : ∀ w ∈ ws, w ∈ pids) :
    (pids.filter (fun a => decide (a ∈ ws))).length = ws.length := by
  have h1 : (pids.filter (fun a => decide (a ∈ ws))).Nodup := hnd.filter _
  have hp : List.Perm (pids.filter (fun a => decide (a ∈ ws))) ws := by
    apply (List.perm_ext_iff_of_nodup h1 hws).mpr
    intro a
    simp only [List.mem_filter, decide_eq_true_eq]
    exact ⟨fun h => h.2, fun h => ⟨hsub a h, h⟩⟩
  exact hp.length_eq

/-- C2: for a game with at least 4 players, role assignment yields
exactly one detective, two werewolves when at least 6 players are
present and one otherwise, and civilians for the rest; every player is
reset alive; each werewolf's `knownAllies` is exactly the names of the
other sampled werewolves (symmetric, self excluded); and with fewer than
4 players the call fails with the precondition error, assigning
nothing. -/
theorem c2_role_assignment (g : Game) (shuffled ws : List String) :
    (g.players.length < 4 →
      assignRoles g shuffled ws = .error "Need at least 4 players for Mafia.") ∧
    (∀ g', 4 ≤ g.players.length →
      shuffled.Perm (g.players.map Player.pid) →
      (g.players.map Player.pid).Nodup →
      ws.Nodup →
      (∀ w ∈ ws, w ∈ shuffled.dropLast) →
      ws.length = min (if 6 ≤ g.players.length then 2 else 1) shuffled.dropLast.length →
      assignRoles g shuffled ws = .ok g' →
      countRole g' "detective" = 1 ∧
      countRole g' "werewolf" = (if 6 ≤ g.players.length then 2 else 1) ∧
      countRole g' "civilian" =
        g.players.length - 1 - (if 6 ≤ g.players.length then 2 else 1) ∧
      (∀ p ∈ g'.players, p.role = some "detective" ∨ p.role = some "werewolf" ∨
        p.role = some "civilian") ∧
      (∀ p ∈ g'.players, p.isAlive = true) ∧
      (∀ p ∈ g'.players, p.role = some "werewolf" →
        p.knownAllies = (ws.filter (fun a => a ≠ p.pid)).filterMap
          (fun a => (findPlayer g a).map Player.name)) ∧
      (∀ p q : Player, p ∈ g'.players → q ∈ g'.players →
        p.role = some "werewolf" → q.role = some "werewolf" → p.pid ≠ q.pid →
        q.name ∈ p.knownAllies)) := by
  constructor
  · intro h
    unfold assignRoles
    rw [if_pos h]
  intro g' h4 hperm hnd hws hsub hlen hok
  have hplen : shuffled.length = g.players.length := by
    rw [hperm.length_eq, List.length_map]
  have hne : shuffled ≠ [] := by
    intro h
    rw [h] at hplen
    simp at hplen
    omega
  have hlast : shuffled.getLast? = some (shuffled.getLast hne) :=
    List.getLast?_eq_getLast_of_ne_nil hne
  have h4' : ¬ g.players.length < 4 := by omega
  obtain ⟨hpl, _, _, _, _, _, _, _⟩ :=
    assignRoles_ok_players g shuffled ws (shuffled.getLast hne) h4' hlast g' hok
  set detId := shuffled.getLast hne with hdetdef
  have hshnd : shuffled.Nodup := hperm.nodup_iff.mpr hnd
  have hdecomp : shuffled.dropLast ++ [detId] = shuffled :=
    List.dropLast_append_getLast hne
  have hdnotin : detId ∉ shuffled.dropLast := by
    intro hmem
    have hnd2 : (shuffled.dropLast ++ [detId]).Nodup := by rw [hdecomp]; exact hshnd
    have hdisj := (List.nodup_append.mp hnd2).2.2
    exact hdisj hmem (List.mem_singleton_self detId)
  have hdws : detId ∉ ws := fun h => hdnotin (hsub _ h)
  have hdmem : detId ∈ g.players.map Player.pid :=
    hperm.subset (List.mem_of_mem_getLast? hlast)
  have hwsmem : ∀ w ∈ ws, w ∈ g.players.map Player.pid := by
    intro w hw
    apply hperm.subset
    rw [← hdecomp]
    exact List.mem_append_left _ (hsub w hw)
  have hdll : shuffled.dropLast.length = g.players.length - 1 := by
    rw [List.length_dropLast, hplen]
  have hklen : ws.length = (if 6 ≤ g.players.length then 2 else 1) := by
    rw [hlen, hdll]
    by_cases h6 : 6 ≤ g.players.length <;> simp [h6] <;> omega
  have hcount : ∀ r : String, countRole g' r =
      (g.players.filter (fun p => assignedRole detId ws p == some r)).length := by
    intro r
    unfold countRole
    rw [hpl, List.filter_map, List.length_map]
    congr 1
  have hdllnd : shuffled.dropLast.Nodup := (List.dropLast_sublist shuffled).nodup hshnd
  refine ⟨?_, ?_, ?_, ?_, ?_, ?_, ?_⟩
  · rw [hcount]
    have hcongr : ∀ p ∈ g.players,
        (assignedRole detId ws p == some "detective") = (p.pid == detId) := by
      intro p _
      unfold assignedRole
      by_cases hw : p.pid ∈ ws
      · rw [if_pos hw]
        have : p.pid ≠ detId := fun h => hdws (h ▸ hw)
        simp [this]
      · rw [if_neg hw]
        by_cases hd : p.pid = detId
        · simp [hd]
        · simp [hd]
    rw [List.filter_congr hcongr]
    have hstep : (g.players.filter (fun p => p.pid == detId)).length =
        ((g.players.map Player.pid).filter (fun a => a == detId)).length := by
      rw [List.filter_map, List.length_map]
      congr 1
    rw [hstep]
    have : (g.players.map Player.pid).count detId = 1 :=
      List.count_eq_one_of_mem hnd hdmem
    rw [← this, List.count, List.countP_eq_length_filter]
  · rw [hcount]
    have hcongr : ∀ p ∈ g.players,
        (assignedRole detId ws p == some "werewolf") = decide (p.pid ∈ ws) := by
      intro p _
      unfold assignedRole
      by_cases hw : p.pid ∈ ws
      · simp [hw]
      · rw [if_neg hw]
        by_cases hd : p.pid = detId <;> simp [hd, hw, hdws]
    rw [List.filter_congr hcongr]
    have hstep : (g.players.filter (fun p => decide (p.pid ∈ ws))).length =
        ((g.players.map Player.pid).filter (fun a => decide (a ∈ ws))).length := by
      rw [List.filter_map, List.length_map]
      congr 1
    rw [hstep, length_filter_mem_eq _ ws hnd hws hwsmem, hklen]
  · rw [hcount]
    have hcongr : ∀ p ∈ g.players,
        (assignedRole detId ws p == some "civilian") =
          decide (p.pid ∉ ws ∧ p.pid ≠ detId) := by
      intro p _
      unfold assignedRole
      by_cases hw : p.pid ∈ ws
      · simp [hw]
      · rw [if_neg hw]
        by_cases hd : p.pid = detId <;> simp [hd, hw, hdws]
    rw [List.filter_congr hcongr]
    have hstep : (g.players.filter (fun p => decide (p.pid ∉ ws ∧ p.pid ≠ detId))).length =
        ((g.players.map Player.pid).filter (fun a => decide (a ∉ ws ∧ a ≠ detId))).length := by
      rw [List.filter_map, List.length_map]
      congr 1
    rw [hstep]
    have hpermlen : ((g.players.map Player.pid).filter
        (fun a => decide (a ∉ ws ∧ a ≠ detId))).length =
        (shuffled.filter (fun a => decide (a ∉ ws ∧ a ≠ detId))).length :=
      ((hperm.filter _).length_eq).symm
    rw [hpermlen, ← hdecomp, List.filter_append]
    have hsingle : ([detId].filter (fun a => decide (a ∉ ws ∧ a ≠ detId))) = [] := by
      simp
    rw [hsingle, List.length_append, List.length_nil, Nat.add_zero]
    have hdrop : shuffled.dropLast.filter (fun a => decide (a ∉ ws ∧ a ≠ detId)) =
        shuffled.dropLast.filter (fun a => !(decide (a ∈ ws))) := by
      apply List.filter_congr
      intro a ha
      have : a ≠ detId := fun h => hdnotin (h ▸ ha)
      by_cases hw : a ∈ ws <;> simp [hw, this]
    rw [hdrop]
    have htot : shuffled.dropLast.length =
        (shuffled.dropLast.filter (fun a => decide (a ∈ ws))).length +
        (shuffled.dropLast.filter (fun a => !(decide (a ∈ ws)))).length := by
      have h := @List.length_eq_length_filter_add String shuffled.dropLast
        (fun a => decide (a ∈ ws))
      simpa using h
    have hin : (shuffled.dropLast.filter (fun a => decide (a ∈ ws))).length = ws.length :=
      length_filter_mem_eq _ ws hdllnd hws hsub
    omega
  · intro p hp
    rw [hpl] at hp
    rcases List.mem_map.mp hp with ⟨p0, _, rfl⟩
    unfold assignedRole
    by_cases hw : p0.pid ∈ ws
    · rw [if_pos hw]
      right; left; rfl
    · rw [if_neg hw]
      by_cases hd : p0.pid = detId
      · rw [if_pos hd]
        left; rfl
      · rw [if_neg hd]
        right; right; rfl
  · intro p hp
    rw [hpl] at hp
    rcases List.mem_map.mp hp with ⟨p0, _, rfl⟩
    rfl
  · intro p hp hrole
    rw [hpl] at hp
    rcases List.mem_map.mp hp with ⟨p0, _, rfl⟩
    have hw : p0.pid ∈ ws := by
      by_contra hw
      unfold assignedRole at hrole
      rw [if_neg hw] at hrole
      by_cases hd : p0.pid = detId
      · rw [if_pos hd] at hrole
        simp at hrole
      · rw [if_neg hd] at hrole
        simp at hrole
    show (if p0.pid ∈ ws then _ else _) = _
    rw [if_pos hw]
  · intro p q hp hq hpr hqr hne2
    rw [hpl] at hp hq
    rcases List.mem_map.mp hp with ⟨p0, hp0, rfl⟩
    rcases List.mem_map.mp hq with ⟨q0, hq0, rfl⟩
    have hwq : q0.pid ∈ ws := by
      by_contra hw
      unfold assignedRole at hqr
      rw [if_neg hw] at hqr
      by_cases hd : q0.pid = detId
      · rw [if_pos hd] at hqr
        simp at hqr
      · rw [if_neg hd] at hqr
        simp at hqr
    have hwp : p0.pid ∈ ws := by
      by_contra hw
      unfold assignedRole at hpr
      rw [if_neg hw] at hpr
      by_cases hd : p0.pid = detId
      · rw [if_pos hd] at hpr
        simp at hpr
      · rw [if_neg hd] at hpr
        simp at hpr
    show _ ∈ (if p0.pid ∈ ws then _ else _)
    rw [if_pos hwp]
    apply List.mem_filterMap.mpr
    refine ⟨q0.pid, ?_, ?_⟩
    · apply List.mem_filter.mpr
      refine ⟨hwq, ?_⟩
      simpa using fun h => hne2 h.symm
    · rw [findPlayer_of_mem hnd hq0]
      rfl

theorem except_ok_of_toOption {e : Except String Game} {a : Game}
    (h : e.toOption = some a) : e = .ok a := by
  cases e
  · simp [Except.toOption] at h
  · simp [Except.toOption] at h
    rw [h]

/-- C2 witness: starting the four-player game of trace A (host as
detective, P1 the single werewolf sampled) yields 1 detective, 1
werewolf, 2 civilians, everyone alive. -/
theorem c2_role_assignment_witness :
    countRole gA4 "detective" = 1 ∧ countRole gA4 "werewolf" = 1 ∧
    countRole gA4 "civilian" = 2 ∧ ∀ p ∈ gA4.players, p.isAlive = true := by
  have hok : assignRoles gA3 ["p1", "p2", "p3", "h"] ["p1"] = .ok gA4 :=
    except_ok_of_toOption (by decide)
  have h := (c2_role_assignment gA3 ["p1", "p2", "p3", "h"] ["p1"]).2 gA4
    (by decide) (by decide) (by decide) (by decide) (by decide) (by decide) hok
  have h6 : (if 6 ≤ gA3.players.length then 2 else 1) = 1 := by decide
  refine ⟨h.1, ?_, ?_, h.2.2.2.2.1⟩
  · rw [h.2.1, h6]
  · rw [h.2.2.1, h6]
    decide

theorem maxByCount_none (l : List (String × Nat)) : maxByCount l = none ↔ l = [] := by
  induction l with
  | nil => simp [maxByCount]
  | cons e rest ih =>
    cases h : maxByCount rest
    · simp [maxByCount, h]
    · simp only [maxByCount, h]
      split <;> simp

theorem maxByCount_mem {l : List (String × Nat)} {e : String × Nat}
    (h : maxByCount l = some e) : e ∈ l := by
  induction l generalizing e with
  | nil => simp [maxByCount] at h
  | cons x rest ih =>
    simp only [maxByCount] at h
    cases h2 : maxByCount rest with
    | none =>
      rw [h2] at h
      dsimp only at h
      injection h with h
      subst h
      exact List.mem_cons_self _ _
    | some e2 =>
      rw [h2] at h
      dsimp only at h
      by_cases hc : x.2 < e2.2
      · rw [if_pos hc] at h
        injection h with h
        subst h
        exact List.mem_cons_of_mem _ (ih h2)
      · rw [if_neg hc] at h
        injection h with h
        subst h
        exact List.mem_cons_self _ _

theorem maxByCount_max {l : List (String × Nat)} {e : String × Nat}
    (h : maxByCount l = some e) : ∀ e2 ∈ l, e2.2 ≤ e.2 := by
  induction l generalizing e with
  | nil => simp [maxByCount] at h
  | cons x rest ih =>
    simp only [maxByCount] at h
    intro e2 he2
    cases h2 : maxByCount rest with
    | none =>
      rw [h2] at h
      dsimp only at h
      injection h with h
      subst h
      have : rest = [] := (maxByCount_none rest).mp h2
      subst this
      rcases List.mem_cons.mp he2 with rfl | hmem
      · exact le_refl _
      · simp at hmem
    | some emax =>
      rw [h2] at h
      dsimp only at h
      rcases List.mem_cons.mp he2 with rfl | hmem
      · by_cases hc : e2.2 < emax.2
        · rw [if_pos hc] at h
          injection h with h
          subst h
          omega
        · rw [if_neg hc] at h
          injection h with h
          subst h
          exact le_refl _
      · have hle := ih h2 e2 hmem
        by_cases hc : x.2 < emax.2
        · rw [if_pos hc] at h
          injection h with h
          subst h
          exact hle
        · rw [if_neg hc] at h
          injection h with h
          subst h
          omega

theorem mem_firstDedupAux (l : List String) :
    ∀ (seen : List String) (x : String),
      (x ∈ firstDedupAux l seen ↔ x ∈ l ∧ x ∉ seen) := by
  induction l with
  | nil => intro seen x; simp [firstDedupAux]
  | cons a rest ih =>
    intro seen x
    simp only [firstDedupAux]
    by_cases ha : a ∈ seen
    · rw [if_pos ha, ih]
      by_cases hxa : x = a
      · subst hxa
        simp [ha]
      · simp [hxa]
    · rw [if_neg ha]
      by_cases hxa : x = a
      · subst hxa
        simp [ha]
      · simp only [List.mem_cons, hxa, false_or]
        rw [ih]
        simp [hxa]

theorem mem_firstDedup (l : List String) (x : String) : x ∈ firstDedup l ↔ x ∈ l := by
  unfold firstDedup
  rw [mem_firstDedupAux]
  simp

theorem mem_tallyPairs {votes : List (String × Option String)} {alive : List String}
    {e : String × Nat} :
    e ∈ tallyPairs votes alive ↔
      e.1 ∈ validVoteTargets votes alive ∧ e.2 = countFor votes alive e.1 := by
  unfold tallyPairs
  rw [List.mem_map]
  constructor
  · rintro ⟨t, ht, rfl⟩
    exact ⟨(mem_firstDedup _ _).mp ht, rfl⟩
  · rintro ⟨h1, h2⟩
    obtain ⟨a, b⟩ := e
    refine ⟨a, (mem_firstDedup _ _).mpr h1, ?_⟩
    simp only at h2
    rw [h2]

theorem memVT_iff_countFor_pos {votes : List (String × Option String)}
    {alive : List String} {t : String} :
    t ∈ validVoteTargets votes alive ↔ 1 ≤ countFor votes alive t := by
  unfold validVoteTargets countFor
  constructor
  · intro h
    rcases List.mem_filterMap.mp h with ⟨e, he, hfe⟩
    cases e2 : e.2 with
    | none =>
      rw [e2] at hfe
      simp at hfe
    | some t2 =>
      rw [e2] at hfe
      dsimp only at hfe
      by_cases hc : e.1 ∈ alive ∧ t2 ∈ alive
      · rw [if_pos hc] at hfe
        injection hfe with hfe
        have hmem : e ∈ votes.filter
            (fun e => decide (e.1 ∈ alive ∧ e.2 = some t ∧ t ∈ alive)) := by
          apply List.mem_filter.mpr
          refine ⟨he, ?_⟩
          simp [e2, ← hfe, hc.1, hc.2]
        have := List.ne_nil_of_mem hmem
        have hpos := List.length_pos.mpr this
        omega
      · rw [if_neg hc] at hfe
        simp at hfe
  · intro h
    have hne : votes.filter (fun e => decide (e.1 ∈ alive ∧ e.2 = some t ∧ t ∈ alive)) ≠ [] := by
      intro hnil
      rw [hnil] at h
      simp at h
    obtain ⟨e, he⟩ := List.exists_mem_of_ne_nil _ hne
    have hem := List.mem_filter.mp he
    have hpred : e.1 ∈ alive ∧ e.2 = some t ∧ t ∈ alive := by
      have := hem.2
      simpa using this
    apply List.mem_filterMap.mpr
    refine ⟨e, hem.1, ?_⟩
    rw [hpred.2.1]
    dsimp only
    rw [if_pos ⟨hpred.1, hpred.2.2⟩]

theorem memVT_alive {votes : List (String × Option String)} {alive : List String}
    {t : String} (h : t ∈ validVoteTargets votes alive) : t ∈ alive := by
  unfold validVoteTargets at h
  rcases List.mem_filterMap.mp h with ⟨e, _, hfe⟩
  cases e2 : e.2 with
  | none =>
    rw [e2] at hfe
    simp at hfe
  | some t2 =>
    rw [e2] at hfe
    dsimp only at hfe
    by_cases hc : e.1 ∈ alive ∧ t2 ∈ alive
    · rw [if_pos hc] at hfe
      injection hfe with hfe
      subst hfe
      exact hc.2
    · rw [if_neg hc] at hfe
      simp at hfe

theorem mem_aliveIds {g : Game} {x : String} :
    x ∈ aliveIds g ↔ ∃ p ∈ g.players, p.pid = x ∧ p.isAlive = true := by
  unfold aliveIds alivePlayers
  rw [List.mem_map]
  constructor
  · rintro ⟨p, hp, rfl⟩
    have := List.mem_filter.mp hp
    exact ⟨p, this.1, rfl, this.2⟩
  · rintro ⟨p, hp, rfl, ha⟩
    exact ⟨p, List.mem_filter.mpr ⟨hp, ha⟩, rfl⟩

theorem findPlayer_congr {g1 g2 : Game} (h : g1.players = g2.players) (a : String) :
    findPlayer g1 a = findPlayer g2 a := by
  unfold findPlayer
  rw [h]

theorem evaluateVictory_cases (g : Game) :
    ((evaluateVictory g).1 = true ∧ (evaluateVictory g).2.status = "ended" ∧
     (evaluateVictory g).2.workflowStage = "ended" ∧
     (evaluateVictory g).2.players = g.players ∧
     (evaluateVictory g).2.votes = g.votes) ∨
    evaluateVictory g = (false, g) := by
  unfold evaluateVictory
  split
  · left
    exact ⟨rfl, rfl, rfl, rfl, rfl⟩
  · split
    · left
      exact ⟨rfl, rfl, rfl, rfl, rfl⟩
    · right
      rfl

theorem evaluateVictory_true_eq {g g5 : Game} (h : evaluateVictory g = (true, g5)) :
    g5.status = "ended" ∧ g5.workflowStage = "ended" ∧
    g5.players = g.players ∧ g5.votes = g.votes := by
  rcases evaluateVictory_cases g with ⟨_, h2, h3, h4, h5⟩ | h1
  · have hsnd : (evaluateVictory g).2 = g5 := by rw [h]
    rw [← hsnd]
    exact ⟨h2, h3, h4, h5⟩
  · rw [h1] at h
    injection h with hf _
    exact absurd hf (by simp)

theorem evaluateVictory_false_eq {g g5 : Game} (h : evaluateVictory g = (false, g5)) :
    g5 = g := by
  rcases evaluateVictory_cases g with ⟨h1, _, _, _, _⟩ | h1
  · rw [h] at h1
    exact absurd h1 (by simp)
  · rw [h1] at h
    injection h with _ hs
    exact hs.symm

theorem logVoteChange_fields (g : Game) (voter : Player) (target : Option Player)
    (previous : Option String) :
    (logVoteChange g voter target previous).players = g.players ∧
    (logVoteChange g voter target previous).votes = g.votes ∧
    (logVoteChange g voter target previous).status = g.status ∧
    (logVoteChange g voter target previous).workflowStage = g.workflowStage ∧
    (logVoteChange g voter target previous).nightStage = g.nightStage ∧
    (logVoteChange g voter target previous).joinSequence = g.joinSequence := by
  unfold logVoteChange
  split
  · cases target <;> exact ⟨rfl, rfl, rfl, rfl, rfl, rfl⟩
  · exact ⟨rfl, rfl, rfl, rfl, rfl, rfl⟩

theorem resolveMajority_spec (g2 : Game) (votes : List (String × Option String))
    (alive : List String) (majority : Nat)
    (hnd : (g2.players.map Player.pid).Nodup)
    (halive : alive = aliveIds g2)
    (hmaj : 1 ≤ majority) :
    (∃ x, majority ≤ countFor votes alive x ∧
      (∃ p ∈ g2.players, p.pid = x ∧ p.isAlive = true) ∧
      (∃ q ∈ (resolveMajority g2 (tallyPairs votes alive) majority).players,
        q.pid = x ∧ q.isAlive = false) ∧
      (resolveMajority g2 (tallyPairs votes alive) majority).players =
        g2.players.map (fun p => if p.pid == x then { p with isAlive := false } else p) ∧
      (resolveMajority g2 (tallyPairs votes alive) majority).votes = g2.votes ∧
      (((resolveMajority g2 (tallyPairs votes alive) majority).status = "ended" ∧
        (resolveMajority g2 (tallyPairs votes alive) majority).workflowStage = "ended") ∨
       ((resolveMajority g2 (tallyPairs votes alive) majority).status = g2.status ∧
        (resolveMajority g2 (tallyPairs votes alive) majority).workflowStage = "night" ∧
        (resolveMajority g2 (tallyPairs votes alive) majority).nightStage =
          some "wolves"))) ∨
    ((∀ x, countFor votes alive x < majority) ∧
      resolveMajority g2 (tallyPairs votes alive) majority = g2) := by
  unfold resolveMajority
  cases hmax : maxByCount (tallyPairs votes alive) with
  | none =>
    right
    have htnil : tallyPairs votes alive = [] := (maxByCount_none _).mp hmax
    refine ⟨?_, rfl⟩
    intro x
    by_contra hge
    push_neg at hge
    have hvt : x ∈ validVoteTargets votes alive :=
      memVT_iff_countFor_pos.mpr (le_trans hmaj hge)
    have : (x, countFor votes alive x) ∈ tallyPairs votes alive :=
      mem_tallyPairs.mpr ⟨hvt, rfl⟩
    rw [htnil] at this
    exact absurd this (List.not_mem_nil _)
  | some e =>
    obtain ⟨tid, cnt⟩ := e
    have hmem := maxByCount_mem hmax
    have hpair := mem_tallyPairs.mp hmem
    by_cases hc : majority ≤ cnt
    · left
      dsimp only
      rw [if_pos hc]
      have htid_alive : tid ∈ alive := memVT_alive hpair.1
      rw [halive] at htid_alive
      obtain ⟨p, hpmem, hpid, hpalive⟩ := mem_aliveIds.mp htid_alive
      have hfind : findPlayer g2 tid = some p := by
        rw [← hpid]
        exact findPlayer_of_mem hnd hpmem
      rw [hfind]
      dsimp only
      rw [if_pos hpalive]
      refine ⟨tid, ?_, ⟨p, hpmem, hpid, hpalive⟩, ?_⟩
      · have h2 : cnt = countFor votes alive tid := hpair.2
        omega
      split
      next g5 heq =>
        obtain ⟨hst, hwf, hpl, hvo⟩ := evaluateVictory_true_eq heq
        refine ⟨?_, ?_, ?_, Or.inl ⟨hst, hwf⟩⟩
        · refine ⟨{ p with isAlive := false }, ?_, hpid, rfl⟩
          rw [hpl]
          apply List.mem_map.mpr
          refine ⟨p, hpmem, ?_⟩
          rw [if_pos (beq_iff_eq.mpr hpid)]
        · rw [hpl]
          rfl
        · rw [hvo]
          rfl
      next g5 heq =>
        have hg5 := evaluateVictory_false_eq heq
        subst hg5
        refine ⟨?_, ?_, ?_, Or.inr ⟨?_, ?_, ?_⟩⟩
        · refine ⟨{ p with isAlive := false }, ?_, hpid, rfl⟩
          rw [(startNight_fields _ _).1]
          apply List.mem_map.mpr
          refine ⟨p, hpmem, ?_⟩
          rw [if_pos (beq_iff_eq.mpr hpid)]
        · rw [(startNight_fields _ _).1]
          rfl
        · rw [(startNight_fields _ _).2.2.2.2.1]
          rfl
        · rw [(startNight_fields _ _).2.2.2.1]
          rfl
        · exact (startNight_fields _ _).2.1
        · exact (startNight_fields _ _).2.2.1
    · right
      dsimp only
      rw [if_neg hc]
      refine ⟨?_, rfl⟩
      intro x
      by_contra hge
      push_neg at hge
      have hvt : x ∈ validVoteTargets votes alive :=
        memVT_iff_countFor_pos.mpr (le_trans hmaj hge)
      have hxmem : (x, countFor votes alive x) ∈ tallyPairs votes alive :=
        mem_tallyPairs.mpr ⟨hvt, rfl⟩
      have := maxByCount_max hmax _ hxmem
      simp only at this
      omega

theorem aliveIds_set_votes (g : Game) (vts : List (String × Option String)) :
    aliveIds { g with votes := vts } = aliveIds g := rfl

theorem aliveIds_congr {g1 g2 : Game} (h : g1.players = g2.players) :
    aliveIds g1 = aliveIds g2 := by
  unfold aliveIds alivePlayers
  rw [h]

theorem submitVoteTally_spec (g : Game) (voter : Player) (target : Option Player)
    (hnd : (g.players.map Player.pid).Nodup)
    (hst : g.status = "in_progress") (hwf : g.workflowStage = "discussion") :
    ((∃ x, (aliveIds g).length / 2 + 1 ≤
        countFor (setVote g.votes voter.pid (target.map Player.pid)) (aliveIds g) x) ↔
      ∃ p ∈ g.players, p.isAlive = true ∧
        ∃ q ∈ (submitVoteTally g voter target).players, q.pid = p.pid ∧ q.isAlive = false) ∧
    ((∃ x, (aliveIds g).length / 2 + 1 ≤
        countFor (setVote g.votes voter.pid (target.map Player.pid)) (aliveIds g) x) →
      ∃ x, (aliveIds g).length / 2 + 1 ≤
        countFor (setVote g.votes voter.pid (target.map Player.pid)) (aliveIds g) x ∧
        (∃ p ∈ g.players, p.pid = x ∧ p.isAlive = true) ∧
        (∃ q ∈ (submitVoteTally g voter target).players, q.pid = x ∧ q.isAlive = false) ∧
        (((submitVoteTally g voter target).status = "ended" ∧
          (submitVoteTally g voter target).workflowStage = "ended") ∨
         ((submitVoteTally g voter target).status = "in_progress" ∧
          (submitVoteTally g voter target).workflowStage = "night" ∧
          (submitVoteTally g voter target).nightStage = some "wolves"))) ∧
    ((∀ x, countFor (setVote g.votes voter.pid (target.map Player.pid)) (aliveIds g) x ≤
        (aliveIds g).length / 2) →
      (submitVoteTally g voter target).players = g.players ∧
      (submitVoteTally g voter target).workflowStage = "discussion") ∧
    (submitVoteTally g voter target).votes =
      setVote g.votes voter.pid (target.map Player.pid) := by
  have hlf := logVoteChange_fields
    { g with votes := setVote g.votes voter.pid (target.map Player.pid) } voter target
    (getVote g.votes voter.pid)
  have hG2players : (logVoteChange
      { g with votes := setVote g.votes voter.pid (target.map Player.pid) } voter target
      (getVote g.votes voter.pid)).players = g.players := hlf.1
  have hnd2 : ((logVoteChange
      { g with votes := setVote g.votes voter.pid (target.map Player.pid) } voter target
      (getVote g.votes voter.pid)).players.map Player.pid).Nodup := by
    rw [hG2players]
    exact hnd
  have halive : aliveIds g = aliveIds (logVoteChange
      { g with votes := setVote g.votes voter.pid (target.map Player.pid) } voter target
      (getVote g.votes voter.pid)) := by
    exact (aliveIds_congr hG2players).symm
  have hmaj : 1 ≤ (aliveIds g).length / 2 + 1 := Nat.succ_le_succ (Nat.zero_le _)
  have hrun : submitVoteTally g voter target = resolveMajority
      (logVoteChange
        { g with votes := setVote g.votes voter.pid (target.map Player.pid) } voter target
        (getVote g.votes voter.pid))
      (tallyPairs (setVote g.votes voter.pid (target.map Player.pid)) (aliveIds g))
      ((aliveIds g).length / 2 + 1) := rfl
  rcases resolveMajority_spec _
      (setVote g.votes voter.pid (target.map Player.pid)) (aliveIds g)
      ((aliveIds g).length / 2 + 1) hnd2 halive hmaj with
    ⟨x, hx, ⟨p, hp, hpid, hpa⟩, ⟨q, hq, hqid, hqa⟩, _, hvotes, hstatus⟩ | ⟨hlt, heqr⟩
  · rw [hG2players] at hp
    rw [← hrun] at hq hvotes hstatus
    refine ⟨?_, ?_, ?_, ?_⟩
    · apply iff_of_true ⟨x, hx⟩
      exact ⟨p, hp, hpa, q, hq, by rw [hqid, hpid], hqa⟩
    · intro _
      refine ⟨x, hx, ⟨p, hp, hpid, hpa⟩, ⟨q, hq, hqid, hqa⟩, ?_⟩
      rcases hstatus with h | ⟨h1, h2, h3⟩
      · exact Or.inl h
      · refine Or.inr ⟨?_, h2, h3⟩
        rw [h1, hlf.2.2.1, hst]
    · intro hall
      have := hall x
      omega
    · rw [hvotes, hlf.2.1]
  · rw [← hrun] at heqr
    refine ⟨?_, ?_, ?_, ?_⟩
    · apply iff_of_false
      · rintro ⟨x, hx⟩
        have := hlt x
        omega
      · rintro ⟨p, hp, hpa, q, hq, hqid, hqa⟩
        rw [heqr, hG2players] at hq
        have : q = p := List.inj_on_of_nodup_map hnd hq hp hqid
        rw [this, hpa] at hqa
        exact absurd hqa (by simp)
    · rintro ⟨x, hx⟩
      have := hlt x
      omega
    · intro _
      rw [heqr, hG2players, hlf.2.2.2.1, hwf]
      exact ⟨rfl, rfl⟩
    · rw [heqr, hlf.2.1]

/-- C1: for a successful day-vote submission on a game with A alive
players, a player is eliminated if and only if some target of the
recorded vote map reaches a tally of floor(A/2)+1 among votes whose
voter and target are both alive; a top tally of at most floor(A/2)
leaves every player untouched and the discussion open; on elimination
the target's alive flag goes false and either the victory evaluator
ended the game or the next night starts; the vote is recorded in every
case. -/
theorem c1_majority_threshold (g g' : Game) (v : String) (t : Option String)
    (hnd : (g.players.map Player.pid).Nodup)
    (hok : submitVote g v t = .ok g') :
    ((∃ x, (aliveIds g).length / 2 + 1 ≤
        countFor (setVote g.votes v t) (aliveIds g) x) ↔
      ∃ p ∈ g.players, p.isAlive = true ∧
        ∃ q ∈ g'.players, q.pid = p.pid ∧ q.isAlive = false) ∧
    ((∃ x, (aliveIds g).length / 2 + 1 ≤
        countFor (setVote g.votes v t) (aliveIds g) x) →
      ∃ x, (aliveIds g).length / 2 + 1 ≤
        countFor (setVote g.votes v t) (aliveIds g) x ∧
        (∃ p ∈ g.players, p.pid = x ∧ p.isAlive = true) ∧
        (∃ q ∈ g'.players, q.pid = x ∧ q.isAlive = false) ∧
        ((g'.status = "ended" ∧ g'.workflowStage = "ended") ∨
         (g'.status = "in_progress" ∧ g'.workflowStage = "night" ∧
          g'.nightStage = some "wolves"))) ∧
    ((∀ x, countFor (setVote g.votes v t) (aliveIds g) x ≤ (aliveIds g).length / 2) →
      g'.players = g.players ∧ g'.workflowStage = "discussion") ∧
    g'.votes = setVote g.votes v t := by
  unfold submitVote at hok
  split at hok
  · exact Except.noConfusion hok
  next hst =>
  split at hok
  · exact Except.noConfusion hok
  next hwf =>
  rw [not_not] at hst hwf
  split at hok
  · exact Except.noConfusion hok
  next voter hv =>
  split at hok
  · exact Except.noConfusion hok
  next hva =>
  rw [not_not] at hva
  split at hok
  · exact Except.noConfusion hok
  next hself =>
  have hvpid : voter.pid = v := findPlayer_pid hv
  split at hok
  next tid =>
    split at hok
    · exact Except.noConfusion hok
    next tp htp =>
    split at hok
    · exact Except.noConfusion hok
    next htpa =>
    injection hok with hok
    subst hok
    have htppid : tp.pid = tid := findPlayer_pid htp
    have hrw : setVote g.votes v (some tid) =
        setVote g.votes voter.pid ((some tp).map Player.pid) := by
      rw [hvpid]
      simp [htppid]
    rw [hrw]
    exact submitVoteTally_spec g voter (some tp) hnd hst hwf
  · injection hok with hok
    subst hok
    have hrw : setVote g.votes v none =
        setVote g.votes voter.pid ((none : Option Player).map Player.pid) := by
      rw [hvpid]
      rfl
    rw [hrw]
    exact submitVoteTally_spec g voter none hnd hst hwf

/-- C1 witness: in trace B, P3's vote is the third vote for P1 among 5
alive players (threshold 3), so P1 is eliminated on the spot. -/
theorem c1_majority_threshold_witness :
    (∃ x, (aliveIds gB11).length / 2 + 1 ≤
      countFor (setVote gB11.votes "p3" (some "p1")) (aliveIds gB11) x) ∧
    ∃ p ∈ gB11.players, p.isAlive = true ∧
      ∃ q ∈ gB12.players, q.pid = p.pid ∧ q.isAlive = false := by
  have h := c1_majority_threshold gB11 gB12 "p3" (some "p1") (by decide)
    (except_ok_of_toOption (by decide))
  have hx : ∃ x, (aliveIds gB11).length / 2 + 1 ≤
      countFor (setVote gB11.votes "p3" (some "p1")) (aliveIds gB11) x :=
    ⟨"p1", by decide⟩
  exact ⟨hx, h.1.mp hx⟩

theorem capNotes_length (l : List String) : (capNotes l).length ≤ 5 := by
  unfold capNotes
  split
  · rw [List.length_drop]
    omega
  · omega

theorem alivePlayers_congr {g1 g2 : Game} (h : g1.players = g2.players) :
    alivePlayers g1 = alivePlayers g2 := by
  unfold alivePlayers
  rw [h]

/-- C9: whenever the detective stage runs with a living detective and at
least one other alive player, exactly one investigation note is appended
to the detective's private notes (capped to the 5 most recent); the note
names the observed alive player and is independent of every role, and
`detectiveTarget` is cleared; when the detective is absent or dead the
stage only clears `detectiveTarget`. -/
theorem c9_detective_stage (pick : List String → Option String) (g : Game)
    (hpick : ValidPick pick) :
    (∀ did d, g.detectiveId = some did → findPlayer g did = some d →
      d.isAlive = true → (g.players.map Player.pid).Nodup →
      (∃ p ∈ alivePlayers g, p.pid ≠ did) →
      ∃ o ∈ alivePlayers g,
        (executeDetectiveStage pick g).players = g.players.map (fun p =>
          if p.pid == d.pid then
            { p with privateNotes := capNotes (p.privateNotes ++ [inspectNote o]) }
          else p) ∧
        (∃ d2 ∈ (executeDetectiveStage pick g).players, d2.pid = did ∧
          d2.privateNotes = capNotes (d.privateNotes ++ [inspectNote o]) ∧
          d2.privateNotes.length ≤ 5) ∧
        (∀ r : Option String, inspectNote { o with role := r } = inspectNote o) ∧
        (executeDetectiveStage pick g).detectiveTarget = none) ∧
    ((g.detectiveId.bind (findPlayer g) = none ∨
      ∃ did d, g.detectiveId = some did ∧ findPlayer g did = some d ∧ d.isAlive = false) →
      executeDetectiveStage pick g = { g with detectiveTarget := none }) := by
  constructor
  · intro did d hdid hfind hda hnd hother
    have hdpid : d.pid = did := findPlayer_pid hfind
    have hsus : ∀ g1 : Game, g1.players = g.players →
        ∃ c s, pick (((alivePlayers g1).filter (fun p => p.pid ≠ d.pid)).map Player.pid) =
            some c ∧
          findPlayer g1 c = some s ∧ s ∈ alivePlayers g ∧ s.isAlive = true := by
      intro g1 hpl
      have halive1 : alivePlayers g1 = alivePlayers g := alivePlayers_congr hpl
      obtain ⟨p0, hp0, hp0ne⟩ := hother
      have hp0f : p0 ∈ (alivePlayers g1).filter (fun p => p.pid ≠ d.pid) := by
        rw [halive1]
        apply List.mem_filter.mpr
        refine ⟨hp0, ?_⟩
        simp [hdpid, hp0ne]
      have hlne : ((alivePlayers g1).filter (fun p => p.pid ≠ d.pid)).map Player.pid ≠ [] := by
        intro hnil
        have := List.map_eq_nil_iff.mp hnil
        rw [this] at hp0f
        exact absurd hp0f (List.not_mem_nil _)
      obtain ⟨c, hc⟩ : ∃ c, pick (((alivePlayers g1).filter
          (fun p => p.pid ≠ d.pid)).map Player.pid) = some c := by
        cases hp : pick (((alivePlayers g1).filter (fun p => p.pid ≠ d.pid)).map Player.pid)
        · exact absurd ((hpick _).1.mp hp) hlne
        · exact ⟨_, rfl⟩
      have hcmem := (hpick _).2 c hc
      rcases List.mem_map.mp hcmem with ⟨s, hs, hspid⟩
      have hsf := List.mem_filter.mp hs
      have hsg : s ∈ alivePlayers g := by
        rw [← halive1]
        exact hsf.1
      have hsal := List.mem_filter.mp hsg
      refine ⟨c, s, hc, ?_, hsg, hsal.2⟩
      rw [findPlayer_congr hpl, ← hspid]
      exact findPlayer_of_mem hnd hsal.1
    have hkey : ∃ o ∈ alivePlayers g,
        (executeDetectiveStage pick g).players = g.players.map (fun p =>
          if p.pid == d.pid then
            { p with privateNotes := capNotes (p.privateNotes ++ [inspectNote o]) }
          else p) ∧
        (executeDetectiveStage pick g).detectiveTarget = none := by
      unfold executeDetectiveStage
      have hbind : g.detectiveId.bind (findPlayer g) = some d := by
        rw [hdid]
        exact hfind
      rw [hbind]
      dsimp only
      rw [if_neg (by rw [hda]; simp)]
      by_cases hai : d.isAI = true ∧ g.detectiveTarget = none
      · rw [if_pos hai]
        obtain ⟨c, s, hc, hfc, hsg, hsal⟩ := hsus g rfl
        rw [hc]
        dsimp only
        simp only [Option.some_bind]
        have hfc2 : findPlayer { g with detectiveTarget := some c } c = some s := hfc
        rw [hfc2]
        dsimp only
        rw [if_pos hsal]
        dsimp only
        exact ⟨s, hsg, by trivial, by trivial⟩
      · rw [if_neg hai]
        cases hdt : g.detectiveTarget with
        | some tid0 =>
          simp only [Option.some_bind]
          cases hft : findPlayer g tid0 with
          | some c =>
            dsimp only
            by_cases hca : c.isAlive = true
            · rw [if_pos hca]
              try dsimp only
              refine ⟨c, ?_, by trivial, by trivial⟩
              exact List.mem_filter.mpr ⟨findPlayer_mem hft, hca⟩
            · rw [if_neg hca]
              dsimp only
              obtain ⟨c2, s, hc2, hfc2, hsg, _⟩ := hsus g rfl
              rw [hc2]
              simp only [Option.some_bind]
              rw [hfc2]
              dsimp only
              exact ⟨s, hsg, by trivial, by trivial⟩
          | none =>
            dsimp only
            obtain ⟨c2, s, hc2, hfc2, hsg, _⟩ := hsus g rfl
            rw [hc2]
            simp only [Option.some_bind]
            rw [hfc2]
            dsimp only
            exact ⟨s, hsg, by trivial, by trivial⟩
        | none =>
          simp only [Option.none_bind]
          try dsimp only
          obtain ⟨c2, s, hc2, hfc2, hsg, _⟩ := hsus g rfl
          rw [hc2]
          simp only [Option.some_bind]
          rw [hfc2]
          dsimp only
          exact ⟨s, hsg, by trivial, by trivial⟩
    obtain ⟨o, ho, hpl, hdt⟩ := hkey
    refine ⟨o, ho, hpl, ?_, fun r => rfl, hdt⟩
    refine ⟨{ d with privateNotes := capNotes (d.privateNotes ++ [inspectNote o]) }, ?_,
      hdpid, rfl, capNotes_length _⟩
    rw [hpl]
    apply List.mem_map.mpr
    refine ⟨d, findPlayer_mem hfind, ?_⟩
    rw [if_pos (by simp)]
  · intro h
    unfold executeDetectiveStage
    rcases h with hnone | ⟨did, d, hdid, hfind, hdead⟩
    · rw [hnone]
    · rw [hdid]
      simp only [Option.some_bind]
      rw [hfind]
      dsimp only
      rw [if_pos (by rw [hdead]; simp)]

/-- C9 witness: in trace B the human detective P4 has no submitted
target, so the stage falls back to the first suspect (the host) and
appends exactly the note naming them. -/
theorem c9_detective_stage_witness :
    ∃ o ∈ alivePlayers gB6,
      (executeDetectiveStage headPick gB6).players = gB6.players.map (fun p =>
        if p.pid == "p4" then
          { p with privateNotes := capNotes (p.privateNotes ++ [inspectNote o]) }
        else p) ∧
      (∃ d2 ∈ (executeDetectiveStage headPick gB6).players, d2.pid = "p4" ∧
        d2.privateNotes = capNotes ([] ++ [inspectNote o]) ∧
        d2.privateNotes.length ≤ 5) ∧
      (∀ r : Option String, inspectNote { o with role := r } = inspectNote o) ∧
      (executeDetectiveStage headPick gB6).detectiveTarget = none := by
  have hvp : ValidPick headPick := by
    intro l
    constructor
    · cases l <;> simp [headPick]
    · intro x hx
      cases l
      · simp [headPick] at hx
      · simp [headPick] at hx
        rw [hx]
        exact List.mem_cons_self _ _
  have h := (c9_detective_stage headPick gB6 hvp).1 "p4"
    ⟨"p4", "P4", false, false, some "detective", true, [], []⟩
    (by decide) (by decide) (by decide) (by decide)
    ⟨⟨"h", "H", true, false, some "werewolf", true, [], []⟩, by decide, by decide⟩
  exact h

theorem foldl_wolfFallbackStep (pick : List String → Option String) (l : List Player) :
    ∀ acc : Game, ∃ wv, l.foldl (wolfFallbackStep pick) acc =
      { acc with werewolfVotes := wv } := by
  induction l with
  | nil =>
    intro acc
    exact ⟨acc.werewolfVotes, rfl⟩
  | cons w rest ih =>
    intro acc
    rw [List.foldl_cons]
    obtain ⟨wv, hwv⟩ := ih (wolfFallbackStep pick acc w)
    refine ⟨wv, ?_⟩
    rw [hwv]
    unfold wolfFallbackStep
    split
    · split <;> rfl
    · rfl

theorem aiWolfFallback_eq (pick : List String → Option String) (g : Game) :
    ∃ wv, aiWolfFallback pick g = { g with werewolfVotes := wv } :=
  foldl_wolfFallbackStep pick (aliveWerewolves g) g

theorem executeWolfStage_fields (pick : List String → Option String) (g : Game) :
    (executeWolfStage pick g).workflowStage = g.workflowStage ∧
    (executeWolfStage pick g).status = g.status ∧
    (executeWolfStage pick g).nightStage = g.nightStage ∧
    (executeWolfStage pick g).joinSequence = g.joinSequence ∧
    (executeWolfStage pick g).players.map Player.pid = g.players.map Player.pid := by
  obtain ⟨wv, hwv⟩ := aiWolfFallback_eq pick g
  unfold executeWolfStage
  split
  · exact ⟨rfl, rfl, rfl, rfl, rfl⟩
  · rw [hwv]
    dsimp only
    split
    next t _ =>
      refine ⟨rfl, rfl, rfl, rfl, ?_⟩
      show ((g.players.map _).map Player.pid) = _
      rw [List.map_map]
      apply List.map_eq_map_iff.mpr
      intro p _
      simp only [Function.comp]
      by_cases h : (p.pid == t.pid) <;> simp [h]
    next => exact ⟨rfl, rfl, rfl, rfl, rfl⟩

theorem executeDetectiveStage_fields (pick : List String → Option String) (g : Game) :
    (executeDetectiveStage pick g).workflowStage = g.workflowStage ∧
    (executeDetectiveStage pick g).status = g.status ∧
    (executeDetectiveStage pick g).nightStage = g.nightStage ∧
    (executeDetectiveStage pick g).joinSequence = g.joinSequence ∧
    (executeDetectiveStage pick g).players.map Player.pid = g.players.map Player.pid := by
  unfold executeDetectiveStage
  have hmap : ∀ (g1 : Game) (did : String) (f : Player → Player),
      (∀ p, (f p).pid = p.pid) →
      (mapPlayer g1 did f).players.map Player.pid = g1.players.map Player.pid := by
    intro g1 did f hf
    show ((g1.players.map _).map Player.pid) = _
    rw [List.map_map]
    apply List.map_eq_map_iff.mpr
    intro p _
    simp only [Function.comp]
    by_cases h : (p.pid == did) <;> simp [h, hf]
  split
  · exact ⟨rfl, rfl, rfl, rfl, rfl⟩
  next d _ =>
    split
    · exact ⟨rfl, rfl, rfl, rfl, rfl⟩
    · dsimp only
      repeat' split
      all_goals
        first
        | exact ⟨rfl, rfl, rfl, rfl, rfl⟩
        | exact ⟨rfl, rfl, rfl, rfl, hmap _ _ _ (fun p => rfl)⟩

theorem prepareTurnOrder_workflow (g : Game) :
    (prepareTurnOrder g).workflowStage = "discussion" ∨
    (prepareTurnOrder g).workflowStage = "night" := by
  unfold prepareTurnOrder
  dsimp only
  split
  · right
    rfl
  · left
    rfl

theorem executeSummaryStage_fields (g : Game) :
    (executeSummaryStage g).nightStage = none ∧
    ((executeSummaryStage g).workflowStage = "discussion" ∨
     (executeSummaryStage g).workflowStage = "night" ∨
     (executeSummaryStage g).workflowStage = "ended") ∧
    ((executeSummaryStage g).workflowStage = "ended" →
      (executeSummaryStage g).status = "ended") := by
  unfold executeSummaryStage
  dsimp only
  split
  next g2 heq =>
    obtain ⟨hst, hwf, _, _⟩ := evaluateVictory_true_eq heq
    exact ⟨rfl, Or.inr (Or.inr hwf), fun _ => hst⟩
  next g2 heq =>
    have hg2 := evaluateVictory_false_eq heq
    refine ⟨rfl, ?_, ?_⟩
    · rcases prepareTurnOrder_workflow g2 with h | h
      · exact Or.inl h
      · exact Or.inr (Or.inl h)
    · intro hended
      have hended2 : (prepareTurnOrder g2).workflowStage = "ended" := hended
      rcases prepareTurnOrder_workflow g2 with h | h <;>
        · rw [h] at hended2
          exact absurd hended2 (by decide)

/-- C4: `advance_night_stage` rejects every call outside the `night`
workflow stage without touching the state; a successful call performs
exactly one stage and the returned token witnesses the fixed order:
from `wolves` only `detective` or a game-ending short circuit, from
`detective` only `summary` (or the ending short circuit), from `summary`
only `complete`, which leaves the night for a new discussion (or routes
back to night, or the game ends); any corrupt stage value resets
defensively to `wolves`. -/
theorem c4_night_stage_order (pick : List String → Option String) (g : Game) :
    (g.workflowStage ≠ "night" →
      advanceNightStage pick g = .error "Night actions are not active.") ∧
    (∀ g2 tok, advanceNightStage pick g = .ok (g2, tok) →
      (tok = "ended" ∨ tok = "detective" ∨ tok = "summary" ∨ tok = "complete" ∨
        tok = "wolves") ∧
      (tok = "ended" → g2.status = "ended" ∧ g2.workflowStage = "ended" ∧
        g2.nightStage = none) ∧
      (tok = "detective" → g.nightStage.getD "wolves" = "wolves" ∧
        g2.nightStage = some "detective" ∧ g2.workflowStage = "night") ∧
      (tok = "summary" → g.nightStage.getD "wolves" = "detective" ∧
        g2.nightStage = some "summary" ∧ g2.workflowStage = "night") ∧
      (tok = "complete" → g.nightStage.getD "wolves" = "summary" ∧
        g2.nightStage = none ∧
        (g2.workflowStage = "discussion" ∨ g2.workflowStage = "night" ∨
          (g2.workflowStage = "ended" ∧ g2.status = "ended"))) ∧
      (tok = "wolves" → g.nightStage.getD "wolves" ≠ "wolves" ∧
        g.nightStage.getD "wolves" ≠ "detective" ∧
        g.nightStage.getD "wolves" ≠ "summary" ∧
        g2.nightStage = some "wolves" ∧ g2.workflowStage = "night") ∧
      (g.nightStage.getD "wolves" = "wolves" → tok = "detective" ∨ tok = "ended") ∧
      (g.nightStage.getD "wolves" = "detective" → tok = "summary" ∨ tok = "ended") ∧
      (g.nightStage.getD "wolves" = "summary" → tok = "complete" ∨ tok = "ended")) := by
  constructor
  · intro h
    unfold advanceNightStage
    rw [if_pos h]
  · intro g2 tok hok
    unfold advanceNightStage at hok
    split at hok
    · exact Except.noConfusion hok
    next hwf =>
    rw [not_not] at hwf
    split at hok
    next g1 heq =>
      injection hok with hok
      rw [Prod.mk.injEq] at hok
      obtain ⟨hg2, htok⟩ := hok
      subst htok
      obtain ⟨hst, hwfe, _, _⟩ := evaluateVictory_true_eq heq
      subst hg2
      refine ⟨Or.inl rfl, fun _ => ⟨hst, hwfe, rfl⟩, ?_, ?_, ?_, ?_, ?_, ?_, ?_⟩
      · intro h
        exact absurd h (by decide)
      · intro h
        exact absurd h (by decide)
      · intro h
        exact absurd h (by decide)
      · intro h
        exact absurd h (by decide)
      · exact fun _ => Or.inr rfl
      · exact fun _ => Or.inr rfl
      · exact fun _ => Or.inr rfl
    next g1 heq =>
      have hg1 := evaluateVictory_false_eq heq
      subst hg1
      dsimp only at hok
      split at hok
      next hsw =>
        split at hok
        next g3 heq2 =>
          injection hok with hok
          rw [Prod.mk.injEq] at hok
          obtain ⟨hg2, htok⟩ := hok
          subst htok
          obtain ⟨hst, hwfe, _, _⟩ := evaluateVictory_true_eq heq2
          subst hg2
          refine ⟨Or.inl rfl, fun _ => ⟨hst, hwfe, rfl⟩, ?_, ?_, ?_, ?_, ?_, ?_, ?_⟩
          · intro h
            exact absurd h (by decide)
          · intro h
            exact absurd h (by decide)
          · intro h
            exact absurd h (by decide)
          · intro h
            exact absurd h (by decide)
          · exact fun _ => Or.inr rfl
          · exact fun _ => Or.inr rfl
          · exact fun _ => Or.inr rfl
        next g3 heq2 =>
          have hg3 := evaluateVictory_false_eq heq2
          injection hok with hok
          rw [Prod.mk.injEq] at hok
          obtain ⟨hg2, htok⟩ := hok
          subst htok
          subst hg2
          have hwolf := executeWolfStage_fields pick g1
          refine ⟨Or.inr (Or.inl rfl), ?_, ?_, ?_, ?_, ?_, fun _ => Or.inl rfl, ?_, ?_⟩
          · intro h
            exact absurd h (by decide)
          · intro _
            refine ⟨hsw, rfl, ?_⟩
            show g3.workflowStage = "night"
            rw [hg3, hwolf.1, hwf]
          · intro h
            exact absurd h (by decide)
          · intro h
            exact absurd h (by decide)
          · intro h
            exact absurd h (by decide)
          · intro h
            rw [hsw] at h
            exact absurd h (by decide)
          · intro h
            rw [hsw] at h
            exact absurd h (by decide)
      next hsw =>
      split at hok
      next hsd =>
        injection hok with hok
        rw [Prod.mk.injEq] at hok
        obtain ⟨hg2, htok⟩ := hok
        subst htok
        subst hg2
        have hdet := executeDetectiveStage_fields pick g1
        refine ⟨Or.inr (Or.inr (Or.inl rfl)), ?_, ?_, ?_, ?_, ?_, ?_, fun _ => Or.inl rfl, ?_⟩
        · intro h
          exact absurd h (by decide)
        · intro h
          exact absurd h (by decide)
        · intro _
          refine ⟨hsd, rfl, ?_⟩
          show (executeDetectiveStage pick g1).workflowStage = "night"
          rw [hdet.1, hwf]
        · intro h
          exact absurd h (by decide)
        · intro h
          exact absurd h (by decide)
        · intro h
          exact absurd h hsw
        · intro h
          rw [hsd] at h
          exact absurd h (by decide)
      next hsd =>
      split at hok
      next hss =>
        injection hok with hok
        rw [Prod.mk.injEq] at hok
        obtain ⟨hg2, htok⟩ := hok
        subst htok
        subst hg2
        have hsum := executeSummaryStage_fields g1
        refine ⟨Or.inr (Or.inr (Or.inr (Or.inl rfl))), ?_, ?_, ?_, ?_, ?_, ?_, ?_,
          fun _ => Or.inl rfl⟩
        · intro h
          exact absurd h (by decide)
        · intro h
          exact absurd h (by decide)
        · intro h
          exact absurd h (by decide)
        · intro _
          refine ⟨hss, hsum.1, ?_⟩
          rcases hsum.2.1 with h | h | h
          · exact Or.inl h
          · exact Or.inr (Or.inl h)
          · exact Or.inr (Or.inr ⟨h, hsum.2.2 h⟩)
        · intro h
          exact absurd h (by decide)
        · intro h
          exact absurd (hss.symm.trans h) (by decide)
        · intro h
          exact absurd (hss.symm.trans h) (by decide)
      next hss =>
        injection hok with hok
        rw [Prod.mk.injEq] at hok
        obtain ⟨hg2, htok⟩ := hok
        subst htok
        subst hg2
        refine ⟨Or.inr (Or.inr (Or.inr (Or.inr rfl))), ?_, ?_, ?_, ?_,
          fun _ => ⟨hsw, hsd, hss, rfl, hwf⟩, ?_, ?_, ?_⟩
        · intro h
          exact absurd h (by decide)
        · intro h
          exact absurd h (by decide)
        · intro h
          exact absurd h (by decide)
        · intro h
          exact absurd h (by decide)
        · intro h
          exact absurd h hsw
        · intro h
          exact absurd h hsd
        · intro h
          exact absurd h hss

theorem except_pair_ok_of_toOption {e : Except String (Game × String)}
    {a : Game × String} (h : e.toOption = some a) : e = .ok a := by
  cases e
  · simp [Except.toOption] at h
  · simp [Except.toOption] at h
    rw [h]

/-- C4 witness: the first advance of trace B runs the wolves stage and
hands over to the detective stage. -/
theorem c4_night_stage_order_witness :
    gB5.nightStage.getD "wolves" = "wolves" ∧
    ∃ g2, advanceNightStage headPick gB5 = .ok (g2, "detective") ∧
      g2.nightStage = some "detective" ∧ g2.workflowStage = "night" := by
  have hok : advanceNightStage headPick gB5 = .ok (gB6, "detective") :=
    except_pair_ok_of_toOption (by decide)
  have h := (c4_night_stage_order headPick gB5).2 gB6 "detective" hok
  have h3 := h.2.2.1 rfl
  exact ⟨h3.1, gB6, hok, h3.2.1, h3.2.2⟩

theorem headPick_valid : ValidPick headPick := by
  intro l
  constructor
  · cases l <;> simp [headPick]
  · intro x hx
    cases l
    · simp [headPick] at hx
    · simp [headPick] at hx
      rw [hx]
      exact List.mem_cons_self _ _

theorem evaluateVictory_true_eq2 {g g5 : Game} (h : evaluateVictory g = (true, g5)) :
    g5.nightStage = g.nightStage ∧ g5.joinSequence = g.joinSequence := by
  unfold evaluateVictory at h
  split at h
  · injection h with _ h2
    rw [← h2]
    exact ⟨rfl, rfl⟩
  · split at h
    · injection h with _ h2
      rw [← h2]
      exact ⟨rfl, rfl⟩
    · injection h with h1 _
      exact absurd h1 (by simp)

theorem evaluateVictory_false_conditions {g g5 : Game}
    (h : evaluateVictory g = (false, g5)) :
    aliveWerewolves g ≠ [] ∧
    (aliveWerewolves g).length < (aliveVillagers g).length := by
  unfold evaluateVictory at h
  split at h
  next he =>
    injection h with h1 _
    exact absurd h1.symm (by simp)
  next he =>
    split at h
    · injection h with h1 _
      exact absurd h1.symm (by simp)
    next hlt =>
      refine ⟨?_, by omega⟩
      intro hnil
      rw [hnil] at he
      exact he rfl

theorem prepareTurnOrder_fields (g : Game) :
    (prepareTurnOrder g).players = g.players ∧
    (prepareTurnOrder g).joinSequence = g.joinSequence ∧
    (prepareTurnOrder g).nightStage = g.nightStage := by
  unfold prepareTurnOrder
  dsimp only
  split <;> exact ⟨rfl, rfl, rfl⟩

theorem prepareTurnOrder_discussion {g : Game}
    (hne : g.joinSequence.filter (fun pid =>
      match findPlayer g pid with
      | some p => p.isAlive
      | none => false) ≠ []) :
    (prepareTurnOrder g).workflowStage = "discussion" := by
  unfold prepareTurnOrder
  dsimp only
  rw [if_neg (by simpa using hne)]
  rfl

theorem buildResponseFilter_fields (g : Game) :
    (buildResponseFilter g).players = g.players ∧
    (buildResponseFilter g).joinSequence = g.joinSequence ∧
    (buildResponseFilter g).nightStage = g.nightStage ∧
    (buildResponseFilter g).workflowStage = g.workflowStage ∧
    (buildResponseFilter g).votes = g.votes := by
  unfold buildResponseFilter
  dsimp only
  split
  · split
    · exact ⟨rfl, rfl, rfl, rfl, rfl⟩
    · split <;> exact ⟨rfl, rfl, rfl, rfl, rfl⟩
  · exact ⟨rfl, rfl, rfl, rfl, rfl⟩

theorem resolveMajority_good (g2 : Game) (tally : List (String × Nat)) (majority : Nat) :
    (resolveMajority g2 tally majority).players.map Player.pid =
      g2.players.map Player.pid ∧
    (resolveMajority g2 tally majority).joinSequence = g2.joinSequence ∧
    (((resolveMajority g2 tally majority).workflowStage = g2.workflowStage ∧
      (resolveMajority g2 tally majority).nightStage = g2.nightStage) ∨
     ((resolveMajority g2 tally majority).workflowStage = "ended" ∧
      (resolveMajority g2 tally majority).nightStage = g2.nightStage) ∨
     ((resolveMajority g2 tally majority).workflowStage = "night" ∧
      (resolveMajority g2 tally majority).nightStage = some "wolves")) := by
  unfold resolveMajority
  have hmapped : ∀ (gin : Game) (tid : String),
      (gin.players.map (fun p =>
        if p.pid == tid then { p with isAlive := false } else p)).map Player.pid =
      gin.players.map Player.pid := by
    intro gin tid
    rw [List.map_map]
    apply List.map_eq_map_iff.mpr
    intro p _
    simp only [Function.comp]
    by_cases h : (p.pid == tid) <;> simp [h]
  split
  next tid cnt =>
    split
    next hc =>
      split
      next kicked hfind =>
        split
        next hal =>
          dsimp only
          split
          next g5 heq =>
            obtain ⟨_, hwfe, hpl, _⟩ := evaluateVictory_true_eq heq
            obtain ⟨hns, hjs⟩ := evaluateVictory_true_eq2 heq
            refine ⟨?_, ?_, Or.inr (Or.inl ⟨hwfe, ?_⟩)⟩
            · rw [hpl]
              exact hmapped _ _
            · rw [hjs]
              rfl
            · rw [hns]
              rfl
          next g5 heq =>
            have hg5 := evaluateVictory_false_eq heq
            subst hg5
            refine ⟨?_, ?_, Or.inr (Or.inr ⟨(startNight_fields _ _).2.1,
              (startNight_fields _ _).2.2.1⟩)⟩
            · rw [(startNight_fields _ _).1]
              exact hmapped _ _
            · rw [(startNight_fields _ _).2.2.2.2.2.1]
              rfl
        next => exact ⟨rfl, rfl, Or.inl ⟨rfl, rfl⟩⟩
      next => exact ⟨rfl, rfl, Or.inl ⟨rfl, rfl⟩⟩
    next => exact ⟨rfl, rfl, Or.inl ⟨rfl, rfl⟩⟩
  next => exact ⟨rfl, rfl, Or.inl ⟨rfl, rfl⟩⟩

theorem dictInsert_pids_cases (ps : List Player) (p : Player) :
    (dictInsert ps p).map Player.pid = ps.map Player.pid ∨
    ((dictInsert ps p).map Player.pid = ps.map Player.pid ++ [p.pid] ∧
      p.pid ∉ ps.map Player.pid) := by
  unfold dictInsert
  split
  next hany =>
    left
    rw [List.map_map]
    apply List.map_eq_map_iff.mpr
    intro q _
    simp only [Function.comp]
    by_cases h : (q.pid == p.pid)
    · simp only [h, if_true]
      exact (beq_iff_eq.mp h).symm
    · simp [h]
  next hany =>
    right
    constructor
    · rw [List.map_append]
      rfl
    · intro hmem
      rcases List.mem_map.mp hmem with ⟨q, hq, hqp⟩
      exact hany (List.any_eq_true.mpr ⟨q, hq, by simp [hqp]⟩)

theorem dictInsert_mem_cases {ps : List Player} {p q : Player}
    (h : q ∈ dictInsert ps p) : q = p ∨ q ∈ ps := by
  unfold dictInsert at h
  split at h
  · rcases List.mem_map.mp h with ⟨q0, hq0, rfl⟩
    by_cases hc : (q0.pid == p.pid)
    · rw [if_pos hc]
      exact Or.inl rfl
    · rw [if_neg hc]
      exact Or.inr hq0
  · rcases List.mem_append.mp h with h1 | h1
    · exact Or.inr h1
    · exact Or.inl (List.mem_singleton.mp h1)

theorem goodState_insert {g : Game} (p : Player) (hg : GoodState g) :
    ∀ js : List String, g.joinSequence = js →
    (p.pid ∈ js →
      GoodState { g with players := dictInsert g.players p }) ∧
    GoodState { g with players := dictInsert g.players p,
                       joinSequence := js ++ [p.pid] } := by
  intro js hjs
  obtain ⟨hinv, hnd, hsub⟩ := hg
  have hndnew : ((dictInsert g.players p).map Player.pid).Nodup := by
    rcases dictInsert_pids_cases g.players p with h | ⟨h, hnm⟩
    · rw [h]
      exact hnd
    · rw [h]
      rw [List.nodup_append]
      exact ⟨hnd, List.nodup_singleton _, by
        intro a ha hb
        rw [List.mem_singleton.mp hb] at ha
        exact hnm ha⟩
  constructor
  · intro hmem
    refine ⟨hinv, hndnew, ?_⟩
    intro q hq
    rcases dictInsert_mem_cases hq with rfl | hq2
    · rw [← hjs] at hmem
      exact hmem
    · exact hsub q hq2
  · refine ⟨hinv, hndnew, ?_⟩
    intro q hq
    show q.pid ∈ js ++ [p.pid]
    rcases dictInsert_mem_cases hq with rfl | hq2
    · exact List.mem_append_right _ (List.mem_singleton_self _)
    · exact List.mem_append_left _ (hjs ▸ hsub q hq2)

theorem joinGame_good {g g2 : Game} {n i : String} (hg : GoodState g)
    (h : joinGame g n i = .ok g2) : GoodState g2 := by
  unfold joinGame at h
  split at h
  · exact Except.noConfusion h
  split at h
  · exact Except.noConfusion h
  dsimp only at h
  injection h with h
  rw [← h]
  by_cases hmem : i ∈ g.joinSequence
  · rw [if_pos hmem]
    exact (goodState_insert _ hg g.joinSequence rfl).1 hmem
  · rw [if_neg hmem]
    exact (goodState_insert _ hg g.joinSequence rfl).2

theorem recordEvent_good {g : Game} (hg : GoodState g) (text : String)
    (phase : Option String) : GoodState (recordEvent g text phase) := by
  obtain ⟨hinv, hnd, hsub⟩ := hg
  exact ⟨hinv, hnd, hsub⟩

theorem addAIPlayer_good {g g2 : Game} {hid i : String} {n : Option String}
    (hg : GoodState g) (h : addAIPlayer g hid n i = .ok g2) : GoodState g2 := by
  unfold addAIPlayer at h
  split at h
  · exact Except.noConfusion h
  split at h
  · exact Except.noConfusion h
  split at h
  · exact Except.noConfusion h
  dsimp only at h
  injection h with h
  rw [← h]
  by_cases hmem : i ∈ g.joinSequence
  · rw [if_pos hmem]
    exact recordEvent_good ((goodState_insert _ hg g.joinSequence rfl).1 hmem) _ _
  · rw [if_neg hmem]
    exact recordEvent_good ((goodState_insert _ hg g.joinSequence rfl).2) _ _

theorem removePlayer_good {g g2 : Game} {hid t : String} (hg : GoodState g)
    (h : removePlayer g hid t = .ok g2) : GoodState g2 := by
  unfold removePlayer at h
  split at h
  · exact Except.noConfusion h
  split at h
  · exact Except.noConfusion h
  split at h
  · exact Except.noConfusion h
  split at h
  · exact Except.noConfusion h
  split at h
  · exact Except.noConfusion h
  dsimp only at h
  injection h with h
  rw [← h]
  obtain ⟨hinv, hnd, hsub⟩ := hg
  apply recordEvent_good
  refine ⟨hinv, ?_, ?_⟩
  · have hsubl : ((g.players.filter (fun p => decide (p.pid ≠ t))).map Player.pid).Sublist
        (g.players.map Player.pid) :=
      (List.filter_sublist _).map Player.pid
    exact hnd.sublist hsubl
  · intro q hq
    have hqf := List.mem_filter.mp hq
    have hqo := hsub q hqf.1
    apply List.mem_filter.mpr
    exact ⟨hqo, hqf.2⟩

theorem assignRoles_good {g g2 : Game} {sh ws : List String} (hg : GoodState g)
    (h : assignRoles g sh ws = .ok g2) : GoodState g2 := by
  unfold assignRoles at h
  split at h
  · exact Except.noConfusion h
  split at h
  · exact Except.noConfusion h
  next detId _ =>
  dsimp only at h
  injection h with h
  rw [← h]
  obtain ⟨_, hnd, hsub⟩ := hg
  have hmaps : ∀ (l : List Player) (f : Player → Player), (∀ p, (f p).pid = p.pid) →
      (l.map f).map Player.pid = l.map Player.pid := by
    intro l f hf
    rw [List.map_map]
    apply List.map_eq_map_iff.mpr
    intro p _
    simp only [Function.comp]
    exact hf p
  have hpid1 : ∀ p : Player, ((fun p : Player =>
      { p with role := some "civilian", isAlive := true,
               privateNotes := [], knownAllies := [] }) p).pid = p.pid := fun _ => rfl
  constructor
  · show (some "wolves" ≠ none ↔ "night" = "night")
    simp
  constructor
  · show ((((g.players.map _).map _).map _).map _).map Player.pid |>.Nodup
    rw [hmaps, hmaps, hmaps, hmaps]
    · exact hnd
    · exact hpid1
    · intro p
      by_cases hq : (p.pid == detId) <;> simp [hq]
    · intro p
      by_cases hq : p.pid ∈ ws <;> simp [hq]
    · intro p
      by_cases hq : p.pid ∈ ws <;> simp [hq]
  · intro q hq
    show q.pid ∈ g.joinSequence
    have : q.pid ∈ ((((g.players.map _).map _).map _).map _).map Player.pid :=
      List.mem_map_of_mem Player.pid hq
    rw [hmaps, hmaps, hmaps, hmaps] at this
    · rcases List.mem_map.mp this with ⟨p0, hp0, hp0e⟩
      rw [← hp0e]
      exact hsub p0 hp0
    · exact hpid1
    · intro p
      by_cases hq2 : (p.pid == detId) <;> simp [hq2]
    · intro p
      by_cases hq2 : p.pid ∈ ws <;> simp [hq2]
    · intro p
      by_cases hq2 : p.pid ∈ ws <;> simp [hq2]

theorem goodState_of_maps {g g2 : Game}
    (hnd : (g.players.map Player.pid).Nodup)
    (hsub : ∀ p ∈ g.players, p.pid ∈ g.joinSequence)
    (hpl : g2.players.map Player.pid = g.players.map Player.pid)
    (hjs : g2.joinSequence = g.joinSequence)
    (hinv : InvNight g2) : GoodState g2 := by
  refine ⟨hinv, by rw [hpl]; exact hnd, ?_⟩
  intro q hq
  have hmem : q.pid ∈ g2.players.map Player.pid := List.mem_map_of_mem Player.pid hq
  rw [hpl] at hmem
  rcases List.mem_map.mp hmem with ⟨p0, hp0, hp0e⟩
  rw [hjs, ← hp0e]
  exact hsub p0 hp0

theorem startGame_good {g g2 : Game} {p : String} {sh ws : List String}
    (hg : GoodState g) (h : startGame g p sh ws = .ok g2) : GoodState g2 := by
  unfold startGame at h
  split at h
  · exact Except.noConfusion h
  split at h
  · exact Except.noConfusion h
  split at h
  · exact Except.noConfusion h
  split at h
  · exact Except.noConfusion h
  exact assignRoles_good hg h

theorem advanceTurn_good {g g2 : Game} {p : String} (hg : GoodState g)
    (h : advanceTurn g p = .ok g2) : GoodState g2 := by
  unfold advanceTurn at h
  split at h
  · exact Except.noConfusion h
  split at h
  · exact Except.noConfusion h
  split at h
  · exact Except.noConfusion h
  split at h
  · exact Except.noConfusion h
  split at h
  · exact Except.noConfusion h
  split at h
  · injection h with h
    rw [← h]
    exact ⟨hg.1, hg.2.1, hg.2.2⟩
  · split at h
    · injection h with h
      rw [← h]
      exact ⟨hg.1, hg.2.1, hg.2.2⟩
    · exact Except.noConfusion h

theorem wolfVote_good {g g2 : Game} {p t : String} (hg : GoodState g)
    (h : wolfVote g p t = .ok g2) : GoodState g2 := by
  unfold wolfVote at h
  split at h
  · exact Except.noConfusion h
  split at h
  · exact Except.noConfusion h
  split at h
  · exact Except.noConfusion h
  split at h
  · exact Except.noConfusion h
  split at h
  · exact Except.noConfusion h
  split at h
  · exact Except.noConfusion h
  split at h
  · exact Except.noConfusion h
  injection h with h
  rw [← h]
  exact ⟨hg.1, hg.2.1, hg.2.2⟩

theorem detectiveSelect_good {g g2 : Game} {p t : String} (hg : GoodState g)
    (h : detectiveSelect g p t = .ok g2) : GoodState g2 := by
  unfold detectiveSelect at h
  split at h
  · exact Except.noConfusion h
  split at h
  · exact Except.noConfusion h
  split at h
  · exact Except.noConfusion h
  split at h
  · exact Except.noConfusion h
  split at h
  · exact Except.noConfusion h
  split at h
  · exact Except.noConfusion h
  split at h
  · exact Except.noConfusion h
  split at h
  · exact Except.noConfusion h
  split at h
  · exact Except.noConfusion h
  injection h with h
  rw [← h]
  exact ⟨hg.1, hg.2.1, hg.2.2⟩

theorem finishRound_good {g g2 : Game} {p : String} (hg : GoodState g)
    (h : finishRound g p = .ok g2) : GoodState g2 := by
  unfold finishRound at h
  split at h
  · exact Except.noConfusion h
  split at h
  · exact Except.noConfusion h
  split at h
  · exact Except.noConfusion h
  split at h
  · exact Except.noConfusion h
  injection h with h
  rw [← h]
  refine goodState_of_maps hg.2.1 hg.2.2 ?_ (startNight_fields g _).2.2.2.2.2.1 ?_
  · rw [(startNight_fields g _).1]
  · unfold InvNight
    rw [(startNight_fields g _).2.1, (startNight_fields g _).2.2.1]
    decide

theorem resolveMajority_goodState {g2 : Game} (tally : List (String × Nat))
    (majority : Nat) (hg : GoodState g2) (hwf : g2.workflowStage = "discussion")
    (hns : g2.nightStage = none) :
    GoodState (resolveMajority g2 tally majority) := by
  obtain ⟨hinv, hnd, hsub⟩ := hg
  obtain ⟨hpl, hjs, hcase⟩ := resolveMajority_good g2 tally majority
  refine goodState_of_maps hnd hsub hpl hjs ?_
  unfold InvNight
  rcases hcase with ⟨h1, h2⟩ | ⟨h1, h2⟩ | ⟨h1, h2⟩
  · rw [h1, h2, hwf, hns]
    decide
  · rw [h1, h2, hns]
    decide
  · rw [h1, h2]
    decide

theorem submitVoteTally_good {g : Game} (voter : Player) (target : Option Player)
    (hg : GoodState g) (hwf : g.workflowStage = "discussion")
    (hns : g.nightStage = none) :
    GoodState (submitVoteTally g voter target) := by
  unfold submitVoteTally
  dsimp only
  apply resolveMajority_goodState
  · refine goodState_of_maps hg.2.1 hg.2.2 ?_ ?_ ?_
    · rw [(logVoteChange_fields _ voter target _).1]
    · rw [(logVoteChange_fields _ voter target _).2.2.2.2.2]
    · unfold InvNight
      rw [(logVoteChange_fields _ voter target _).2.2.2.2.1,
        (logVoteChange_fields _ voter target _).2.2.2.1]
      show (g.nightStage ≠ none ↔ g.workflowStage = "night")
      exact hg.1
  · rw [(logVoteChange_fields _ voter target _).2.2.2.1]
    exact hwf
  · rw [(logVoteChange_fields _ voter target _).2.2.2.2.1]
    exact hns

theorem submitVote_good {g g2 : Game} {v : String} {t : Option String}
    (hg : GoodState g) (h : submitVote g v t = .ok g2) : GoodState g2 := by
  unfold submitVote at h
  split at h
  · exact Except.noConfusion h
  split at h
  · exact Except.noConfusion h
  next hwfneg =>
  have hwf : g.workflowStage = "discussion" := not_not.mp hwfneg
  have hns : g.nightStage = none := by
    by_contra hne
    have hni := hg.1.mp hne
    rw [hwf] at hni
    exact absurd hni (by decide)
  split at h
  · exact Except.noConfusion h
  next voter hv =>
  split at h
  · exact Except.noConfusion h
  split at h
  · exact Except.noConfusion h
  split at h
  next tid =>
    split at h
    · exact Except.noConfusion h
    next tpl hft =>
      split at h
      · exact Except.noConfusion h
      injection h with h
      rw [← h]
      exact submitVoteTally_good voter (some tpl) hg hwf hns
  next =>
    injection h with h
    rw [← h]
    exact submitVoteTally_good voter none hg hwf hns

theorem prepareTurnOrder_good_aux {g0 g : Game}
    (hnd : (g0.players.map Player.pid).Nodup)
    (hsub : ∀ p ∈ g0.players, p.pid ∈ g0.joinSequence)
    (hpl : g.players = g0.players)
    (hjs : g.joinSequence = g0.joinSequence)
    (hfc : aliveWerewolves g ≠ []) :
    GoodState { prepareTurnOrder g with nightStage := none } := by
  refine goodState_of_maps hnd hsub ?_ ?_ ?_
  · dsimp only
    rw [(prepareTurnOrder_fields g).1, hpl]
  · dsimp only
    rw [(prepareTurnOrder_fields g).2.1, hjs]
  · obtain ⟨w, hw⟩ := List.exists_mem_of_ne_nil _ hfc
    have hwp0 : w ∈ alivePlayers g := (List.mem_filter.mp hw).1
    have hwp : w ∈ g.players := (List.mem_filter.mp hwp0).1
    have hwa : w.isAlive = true := (List.mem_filter.mp hwp0).2
    have hnd2 : (g.players.map Player.pid).Nodup := by rw [hpl]; exact hnd
    have hfind : findPlayer g w.pid = some w := findPlayer_of_mem hnd2 hwp
    have hne : g.joinSequence.filter (fun pid =>
        match findPlayer g pid with
        | some p => p.isAlive
        | none => false) ≠ [] :=
      List.ne_nil_of_mem (List.mem_filter.mpr
        ⟨by rw [hjs]; exact hsub w (hpl ▸ hwp), by rw [hfind]; exact hwa⟩)
    show ((none : Option String) ≠ none ↔ (prepareTurnOrder g).workflowStage = "night")
    rw [prepareTurnOrder_discussion hne]
    decide

theorem executeSummaryStage_good {g : Game} (hg : GoodState g) :
    GoodState (executeSummaryStage g) := by
  obtain ⟨hinv, hnd, hsub⟩ := hg
  unfold executeSummaryStage
  dsimp only
  split
  next g2 heq =>
    obtain ⟨_, hwfe, hpl, _⟩ := evaluateVictory_true_eq heq
    obtain ⟨_, hjs⟩ := evaluateVictory_true_eq2 heq
    refine goodState_of_maps hnd hsub ?_ ?_ ?_
    · dsimp only
      rw [hpl]
    · dsimp only
      rw [hjs]
    · show ((none : Option String) ≠ none ↔ g2.workflowStage = "night")
      rw [hwfe]
      decide
  next g2 heq =>
    have hfc := evaluateVictory_false_conditions heq
    have hg2 := evaluateVictory_false_eq heq
    subst hg2
    exact prepareTurnOrder_good_aux hnd hsub rfl rfl hfc.1

theorem advanceNightStage_good {g g2 : Game} {tok : String}
    (pick : List String → Option String) (hg : GoodState g)
    (h : advanceNightStage pick g = .ok (g2, tok)) : GoodState g2 := by
  obtain ⟨hinv, hnd, hsub⟩ := hg
  unfold advanceNightStage at h
  split at h
  · exact Except.noConfusion h
  next hwfneg =>
  have hwf : g.workflowStage = "night" := not_not.mp hwfneg
  split at h
  next g1 heq =>
    injection h with h
    rw [Prod.mk.injEq] at h
    obtain ⟨hg2, _⟩ := h
    rw [← hg2]
    obtain ⟨_, hwfe, hpl, _⟩ := evaluateVictory_true_eq heq
    obtain ⟨_, hjs⟩ := evaluateVictory_true_eq2 heq
    refine goodState_of_maps hnd hsub ?_ ?_ ?_
    · dsimp only
      rw [hpl]
    · dsimp only
      rw [hjs]
    · show ((none : Option String) ≠ none ↔ g1.workflowStage = "night")
      rw [hwfe]
      decide
  next g1 heq =>
    have hg1 := evaluateVictory_false_eq heq
    dsimp only at h
    rw [hg1] at h
    split at h
    · split at h
      next g3 heq2 =>
        injection h with h
        rw [Prod.mk.injEq] at h
        obtain ⟨hg2, _⟩ := h
        rw [← hg2]
        obtain ⟨_, hwfe, hpl, _⟩ := evaluateVictory_true_eq heq2
        obtain ⟨_, hjs⟩ := evaluateVictory_true_eq2 heq2
        obtain ⟨_, _, _, hWjs, hWpl⟩ := executeWolfStage_fields pick g
        refine goodState_of_maps hnd hsub ?_ ?_ ?_
        · dsimp only
          rw [hpl]
          exact hWpl
        · dsimp only
          rw [hjs]
          exact hWjs
        · show ((none : Option String) ≠ none ↔ g3.workflowStage = "night")
          rw [hwfe]
          decide
      next g3 heq2 =>
        have hg3 := evaluateVictory_false_eq heq2
        subst hg3
        injection h with h
        rw [Prod.mk.injEq] at h
        obtain ⟨hg2, _⟩ := h
        rw [← hg2]
        obtain ⟨hWwf, _, _, hWjs, hWpl⟩ := executeWolfStage_fields pick g
        refine goodState_of_maps hnd hsub ?_ ?_ ?_
        · dsimp only
          exact hWpl
        · dsimp only
          exact hWjs
        · show ((some "detective" : Option String) ≠ none ↔
            (executeWolfStage pick g).workflowStage = "night")
          rw [hWwf, hwf]
          decide
    · split at h
      · injection h with h
        rw [Prod.mk.injEq] at h
        obtain ⟨hg2, _⟩ := h
        rw [← hg2]
        obtain ⟨hDwf, _, _, hDjs, hDpl⟩ := executeDetectiveStage_fields pick g
        refine goodState_of_maps hnd hsub ?_ ?_ ?_
        · dsimp only
          exact hDpl
        · dsimp only
          exact hDjs
        · show ((some "summary" : Option String) ≠ none ↔
            (executeDetectiveStage pick g).workflowStage = "night")
          rw [hDwf, hwf]
          decide
      · split at h
        · injection h with h
          rw [Prod.mk.injEq] at h
          obtain ⟨hg2, _⟩ := h
          rw [← hg2]
          exact executeSummaryStage_good ⟨hinv, hnd, hsub⟩
        · injection h with h
          rw [Prod.mk.injEq] at h
          obtain ⟨hg2, _⟩ := h
          rw [← hg2]
          refine ⟨?_, hnd, hsub⟩
          show ((some "wolves" : Option String) ≠ none ↔ g.workflowStage = "night")
          rw [hwf]
          decide

theorem advanceNight_good {g g2 : Game} {p : String}
    (pick : List String → Option String) (hg : GoodState g)
    (h : advanceNight pick g p = .ok g2) : GoodState g2 := by
  unfold advanceNight at h
  split at h
  · exact Except.noConfusion h
  split at h
  · exact Except.noConfusion h
  split at h
  · exact Except.noConfusion h
  split at h
  · exact Except.noConfusion h
  cases hs : advanceNightStage pick g with
  | error e =>
    rw [hs] at h
    dsimp only [Except.map] at h
    exact Except.noConfusion h
  | ok pr =>
    obtain ⟨a, tok⟩ := pr
    rw [hs] at h
    dsimp only [Except.map] at h
    injection h with h
    rw [← h]
    exact advanceNightStage_good pick hg hs

theorem buildResponseFilter_good {g : Game} (hg : GoodState g) :
    GoodState (buildResponseFilter g) := by
  obtain ⟨hinv, hnd, hsub⟩ := hg
  obtain ⟨hpl, hjs, hns, hwf, _⟩ := buildResponseFilter_fields g
  refine goodState_of_maps hnd hsub (by rw [hpl]) hjs ?_
  unfold InvNight
  rw [hns, hwf]
  exact hinv

theorem newGame_good (hn hid : String) : GoodState (newGame hn hid) := by
  refine ⟨?_, ?_, ?_⟩
  · show ((none : Option String) ≠ none ↔ "lobby" = "night")
    decide
  · exact List.nodup_singleton _
  · intro p hp
    have hp2 : p = newPlayer hid hn true false := List.mem_singleton.mp hp
    rw [hp2]
    exact List.mem_singleton_self _

theorem stepCore_good {g g2 : Game} (hg : GoodState g) (hs : StepCore g g2) :
    GoodState g2 := by
  cases hs with
  | join n i h => exact joinGame_good hg h
  | addAI hid n i h => exact addAIPlayer_good hg h
  | remove hid t h => exact removePlayer_good hg h
  | startG p sh ws h => exact startGame_good hg h
  | turn p h => exact advanceTurn_good hg h
  | wolf p t h => exact wolfVote_good hg h
  | detSel p t h => exact detectiveSelect_good hg h
  | night pick p hv h => exact advanceNight_good pick hg h
  | finish p h => exact finishRound_good hg h
  | vote v t h => exact submitVote_good hg h
  | respond => exact buildResponseFilter_good hg

theorem reachableNR_good {g : Game} (hr : ReachableNR g) : GoodState g := by
  induction hr with
  | init hn hid => exact newGame_good hn hid
  | step _ hs ih => exact stepCore_good ih hs

/-- C7 (corrected): on every game state reachable through the engine
endpoints other than the host `reveal_game` escape hatch, `nightStage`
is non-null exactly when `workflowStage` equals `night`; the claimed
equivalence over all reachable states fails, because `reveal_game`
during a night sets `workflowStage` to `ended` while leaving
`nightStage` set (see the trace-A counterexample). -/
theorem c7_night_stage_sync (g : Game) (hr : ReachableNR g) :
    g.nightStage ≠ none ↔ g.workflowStage = "night" :=
  (reachableNR_good hr).1

/-- C7 witness: the invariant instantiated on a freshly created lobby
game. -/
theorem c7_night_stage_sync_witness :
    ((newGame "H" "h").nightStage ≠ none ↔ (newGame "H" "h").workflowStage = "night") :=
  c7_night_stage_sync (newGame "H" "h") (ReachableNR.init "H" "h")

/-- C7 counterexample: on executed trace A the host reveal during the
first night reaches a state with `workflowStage = "ended"` while
`nightStage` is still `some "wolves"`, so the equivalence does not hold
on every reachable state. -/
theorem c7_reveal_breaks_sync :
    Reachable gA5 ∧ gA5.workflowStage = "ended" ∧ gA5.nightStage = some "wolves" := by
  refine ⟨?_, by decide, by decide⟩
  have h0 : Reachable gA0 := Reachable.init "H" "h"
  have h1 : Reachable gA1 :=
    h0.step (StepCore.join "P1" "p1" (except_ok_of_toOption (by decide)))
  have h2 : Reachable gA2 :=
    h1.step (StepCore.join "P2" "p2" (except_ok_of_toOption (by decide)))
  have h3 : Reachable gA3 :=
    h2.step (StepCore.join "P3" "p3" (except_ok_of_toOption (by decide)))
  have h4 : Reachable gA4 :=
    h3.step (StepCore.startG "h" ["p1", "p2", "p3", "h"] ["p1"]
      (except_ok_of_toOption (by decide)))
  exact Reachable.reveal "h" h4 (except_ok_of_toOption (by decide))

/-- C6 (corrected): entries keyed by dead voters are not removed from
the `votes` map when a tally runs (see the trace-B counterexample); they
are merely inert: the tally of `submit_vote` counts exactly the same
after dropping every entry whose voter is no longer alive, and the
`votes` map is emptied only when `_prepare_turn_order` opens the next
discussion. -/
theorem c6_dead_votes_ignored (g : Game) (t : String) :
    countFor g.votes (aliveIds g) t =
      countFor (g.votes.filter (fun e => decide (e.1 ∈ aliveIds g))) (aliveIds g) t ∧
    (prepareTurnOrder g).votes = [] := by
  constructor
  · unfold countFor
    rw [List.filter_filter]
    congr 1
    apply List.filter_congr
    intro e _
    by_cases hA : e.1 ∈ aliveIds g
    · by_cases hB : e.2 = some t ∧ t ∈ aliveIds g
      · simp [hA, hB]
      · simp [hA, hB]
    · simp [hA]
  · unfold prepareTurnOrder
    dsimp only
    split <;> rfl

/-- C6 counterexample: executed trace B reaches, through the vote tally
that eliminates P1, a state whose `votes` map still holds the entry
keyed by the now-dead voter `p1`, so tallied votes of dead voters are
not removed. -/
theorem c6_dead_voter_entry_persists :
    Reachable gB12 ∧
    submitVote gB11 "p3" (some "p1") = .ok gB12 ∧
    gB12.votes.any (fun e => e.1 == "p1") = true ∧
    (findPlayer gB12 "p1").map Player.isAlive = some false := by
  refine ⟨?_, except_ok_of_toOption (by decide), by decide, by decide⟩
  have h0 : Reachable gB0 := Reachable.init "H" "h"
  have h1 : Reachable gB1 :=
    h0.step (StepCore.join "P1" "p1" (except_ok_of_toOption (by decide)))
  have h2 : Reachable gB2 :=
    h1.step (StepCore.join "P2" "p2" (except_ok_of_toOption (by decide)))
  have h3 : Reachable gB3 :=
    h2.step (StepCore.join "P3" "p3" (except_ok_of_toOption (by decide)))
  have h4 : Reachable gB4 :=
    h3.step (StepCore.join "P4" "p4" (except_ok_of_toOption (by decide)))
  have h5 : Reachable gB5 :=
    h4.step (StepCore.startG "h" ["p1", "p2", "p3", "h", "p4"] ["h"]
      (except_ok_of_toOption (by decide)))
  have h6 : Reachable gB6 :=
    h5.step (StepCore.night headPick "h" headPick_valid
      (except_ok_of_toOption (by decide)))
  have h7 : Reachable gB7 :=
    h6.step (StepCore.night headPick "h" headPick_valid
      (except_ok_of_toOption (by decide)))
  have h8 : Reachable gB8 :=
    h7.step (StepCore.night headPick "h" headPick_valid
      (except_ok_of_toOption (by decide)))
  have h9 : Reachable gB9 :=
    h8.step (StepCore.vote "p1" (some "h") (except_ok_of_toOption (by decide)))
  have h10 : Reachable gB10 :=
    h9.step (StepCore.vote "h" (some "p1") (except_ok_of_toOption (by decide)))
  have h11 : Reachable gB11 :=
    h10.step (StepCore.vote "p2" (some "p1") (except_ok_of_toOption (by decide)))
  exact h11.step (StepCore.vote "p3" (some "p1") (except_ok_of_toOption (by decide)))

end Hackathon
